import Mathlib

/-!
Verification development for the figma-to-html-converter repository.

This file gives a shallow embedding, in Lean 4, of the geometric-inference
core of the converter: the parser's containment regrouping, arrangement /
gap / alignment detection and layout-strategy selection
(src/unnamed/part_003, class Parser) and the CSS layout emission
(src/server/src/transformer/LayoutEngine.ts, class LayoutEngine).

Conventions of the embedding:
* JavaScript numbers are modelled as rationals (ℚ); none of the embedded
  code paths can produce NaN or Infinity on the modelled inputs.
* Math.round is modelled as ⌊x + 1/2⌋ (round half toward +∞, as in JS).
* JavaScript's stable Array.prototype.sort with comparator (a, b) => k a - k b
  is modelled by a stable insertion sort that moves an element past exactly
  the strictly-smaller ones.
* Optional / possibly-undefined fields are modelled with Option; JS truthiness
  of a numeric field o is (o = some v ∧ v ≠ 0).
* String.prototype.toLowerCase / includes are modelled on the character list
  of the string (ASCII case folding, which is what the heuristics rely on).
* The mutable in-place regrouping of the parser is modelled by value:
  each pass first computes, per sibling index, the first sibling that
  visually contains it (the source's inner j-loop), then rebuilds the
  children list, appending every relocated child to its target in scan
  order, exactly as the reference-based pushes do.
-/

/-- JS Math.round: round half toward positive infinity. -/
def jsRound (q : ℚ) : ℤ := ⌊q + 1/2⌋

/-- Round to two decimal places: Math.round(q * 100) / 100. -/
def round2 (q : ℚ) : ℚ := (jsRound (q * 100) : ℚ) / 100

/-- ASCII lower-casing of one character (the fragment of toLowerCase the
name heuristics depend on). -/
def lowerChar (c : Char) : Char :=
  if 65 ≤ c.toNat ∧ c.toNat ≤ 90 then Char.ofNat (c.toNat + 32) else c

/-- Character list of s.toLowerCase(). -/
def jsToLowerData (s : String) : List Char := s.data.map lowerChar

/-- Substring test on character lists (String.prototype.includes). -/
def hasSub (pat : List Char) : List Char → Bool
  | [] => pat.isEmpty
  | c :: t => List.isPrefixOf pat (c :: t) || hasSub pat t

/-- name.toLowerCase().includes('indicator'). -/
def nameHasIndicator (s : String) : Bool := hasSub "indicator".data (jsToLowerData s)

/-- One step of the stable sort: insert a past the strictly smaller elements. -/
def insertStable (lt : α → α → Bool) (a : α) : List α → List α
  | [] => [a]
  | b :: t => if lt b a then b :: insertStable lt a t else a :: b :: t

/-- Stable sort (models JS stable Array.prototype.sort with a key comparator). -/
def sortStable (lt : α → α → Bool) : List α → List α
  | [] => []
  | a :: t => insertStable lt a (sortStable lt t)

/-- JS truthiness of an optional numeric field. -/
def truthyQ (o : Option ℚ) : Bool :=
  match o with
  | some v => v ≠ 0
  | none => false

/-- Axis-aligned bounding box, absoluteBoundingBox in the Figma API. -/
structure BBox where
  x : ℚ
  y : ℚ
  width : ℚ
  height : ℚ
deriving DecidableEq

/-- A fill / stroke / effect entry; only its visibility flag matters to the
embedded code (visible is optional in the API, absent means visible). -/
structure Paint where
  visible : Option Bool
deriving DecidableEq

/-- Figma layout constraints of a node. -/
structure Constraints where
  horizontal : String
  vertical : String
deriving DecidableEq

/-- The scalar fields of a Figma document node (src/server/src/types/figma.ts),
restricted to the fields the embedded code reads. -/
structure FigmaNodeData where
  id : String
  name : String
  ntype : String
  absoluteBoundingBox : Option BBox
  fills : Option (List Paint)
  layoutMode : Option String
  itemSpacing : Option ℚ
  paddingTop : Option ℚ
  paddingRight : Option ℚ
  paddingBottom : Option ℚ
  paddingLeft : Option ℚ
  primaryAxisAlignItems : Option String
  counterAxisAlignItems : Option String
  characters : Option String
  componentId : Option String
  constraints : Option Constraints

/-- A Figma document node: scalar data plus the ordered children list. -/
inductive FigmaNode where
  | mk (data : FigmaNodeData) (children : List FigmaNode)

/-- Scalar data of a node. -/
def FigmaNode.data : FigmaNode → FigmaNodeData
  | .mk d _ => d

/-- Children list of a node. -/
def FigmaNode.children : FigmaNode → List FigmaNode
  | .mk _ cs => cs

/-- The bounding boxes of the children that have one
(children.filter(c => c.absoluteBoundingBox)). -/
def boxesOf (cs : List FigmaNode) : List BBox :=
  cs.filterMap (fun c => c.data.absoluteBoundingBox)

/-- Stable sort of boxes by y ascending (sort((a, b) => a.y - b.y)). -/
def sortByY (bs : List BBox) : List BBox :=
  sortStable (fun a b => decide (a.y < b.y)) bs

/-- Stable sort of boxes by x ascending (sort((a, b) => a.x - b.x)). -/
def sortByX (bs : List BBox) : List BBox :=
  sortStable (fun a b => decide (a.x < b.x)) bs

/-- Result of Parser.detectChildArrangement. -/
inductive Arrangement where
  | vertical
  | horizontal
  | complex
deriving DecidableEq

/-- The consecutive-pair check of the vertical arrangement loop:
next.y ≥ current.y + current.height − 5 for every consecutive pair. -/
def vertChainOK : List BBox → Bool
  | a :: b :: t => (decide (¬ (b.y < a.y + a.height - 5))) && vertChainOK (b :: t)
  | _ => true

/-- The consecutive-pair check of the horizontal arrangement loop. -/
def horizChainOK : List BBox → Bool
  | a :: b :: t => (decide (¬ (b.x < a.x + a.width - 5))) && horizChainOK (b :: t)
  | _ => true

/-- Parser.detectChildArrangement. -/
def detectChildArrangement (cs : List FigmaNode) : Arrangement :=
  let boxes := boxesOf cs
  if boxes.length < 2 then .complex
  else if vertChainOK (sortByY boxes) then .vertical
  else if horizChainOK (sortByX boxes) then .horizontal
  else .complex

/-- The layout strategies of src/server/src/types/internal.ts. -/
inductive LayoutStrategy where
  | Absolute
  | Flexbox
  | Grid
  | Static
deriving DecidableEq

/-- node.layoutMode && node.layoutMode !== 'NONE'. -/
def declaredAutoLayout (n : FigmaNode) : Bool :=
  match n.data.layoutMode with
  | some m => m ≠ "NONE"
  | none => false

/-- Parser.determineLayoutStrategy. -/
def determineLayoutStrategy (n : FigmaNode) : LayoutStrategy :=
  if declaredAutoLayout n then .Flexbox
  else if n.children.length > 0 ∧ n.data.absoluteBoundingBox.isSome then
    match detectChildArrangement n.children with
    | .vertical => .Flexbox
    | .horizontal => .Flexbox
    | .complex => .Absolute
  else .Static

/-- Consecutive vertical gaps next.y − (current.y + current.height) of a
y-sorted box list. -/
def vGaps : List BBox → List ℚ
  | a :: b :: t => (b.y - (a.y + a.height)) :: vGaps (b :: t)
  | _ => []

/-- Consecutive horizontal gaps next.x − (current.x + current.width) of an
x-sorted box list. -/
def hGaps : List BBox → List ℚ
  | a :: b :: t => (b.x - (a.x + a.width)) :: hGaps (b :: t)
  | _ => []

/-- The gap samples of Parser.calculateChildGaps: consecutive gaps along the
arrangement axis of the sorted boxed children, keeping only gaps ≥ 0. -/
def gapSamples (cs : List FigmaNode) (arr : Arrangement) : List ℚ :=
  match arr with
  | .vertical => (vGaps (sortByY (boxesOf cs))).filter (fun g => decide (0 ≤ g))
  | .horizontal => (hGaps (sortByX (boxesOf cs))).filter (fun g => decide (0 ≤ g))
  | .complex => []

/-- Parser.calculateChildGaps (the averageGap field of its result). -/
def calculateChildGaps (cs : List FigmaNode) (arr : Arrangement) : ℚ :=
  if cs.length < 2 then 0
  else
    let gaps := gapSamples cs arr
    if gaps.length = 0 then 0
    else if gaps.length = 1 then round2 (gaps.headD 0)
    else
      let sortedGaps := sortStable (fun a b => decide (a < b)) gaps
      let median := sortedGaps.getD (sortedGaps.length / 2) 0
      let filteredGaps := sortedGaps.filter (fun g => decide (g ≤ median * (5/2)))
      let gapsToUse :=
        if (filteredGaps.length : ℚ) ≥ (gaps.length : ℚ) * (1/2) then filteredGaps else gaps
      let averageGap := gapsToUse.sum / (gapsToUse.length : ℚ)
      let preciseGap := round2 averageGap
      if preciseGap < 0 then 0
      else if preciseGap > 200 then 24
      else preciseGap

/-- The gap estimator as the specification states it, as a function of the
non-negative gap samples: zero samples give 0; one sample is rounded to two
decimals unclamped; with two or more samples the sorted samples are filtered
against 2.5 times the (upper) median, the unfiltered set is used when fewer
than 50 percent survive, and the rounded mean is clamped (negative to 0,
greater than 200 to exactly 24). -/
def gapSpecOf (samples : List ℚ) : ℚ :=
  if samples.length = 0 then 0
  else if samples.length = 1 then round2 (samples.headD 0)
  else
    let sorted := sortStable (fun a b => decide (a < b)) samples
    let median := sorted.getD (sorted.length / 2) 0
    let kept := sorted.filter (fun g => decide (¬ (g > median * (5/2))))
    let retained :=
      if (kept.length : ℚ) < (samples.length : ℚ) * (1/2) then samples else kept
    let avg := round2 (retained.sum / (retained.length : ℚ))
    if avg < 0 then 0 else if avg > 200 then 24 else avg

/-- Result record of Parser.detectAlignment. -/
structure AlignResult where
  justifyContent : Option String
  alignItems : Option String
deriving DecidableEq

/-- The empty result of detectAlignment. -/
def AlignResult.empty : AlignResult := ⟨none, none⟩

/-- Vertical-arrangement tally: child center x within 2px of the parent
center x. -/
def centeredV (pb b : BBox) : Bool :=
  decide (|b.x + b.width / 2 - (pb.x + pb.width / 2)| < 2)

/-- Vertical-arrangement tally: not centered, left edge within 5px. -/
def leftAlignedV (pb b : BBox) : Bool :=
  !centeredV pb b && decide (|b.x - pb.x| < 5)

/-- Vertical-arrangement tally: not centered, not left, right edge within 5px. -/
def rightAlignedV (pb b : BBox) : Bool :=
  !centeredV pb b && !(decide (|b.x - pb.x| < 5)) &&
    decide (|b.x + b.width - (pb.x + pb.width)| < 5)

/-- Horizontal-arrangement tally: child center y within 2px of the parent
center y. -/
def centeredH (pb b : BBox) : Bool :=
  decide (|b.y + b.height / 2 - (pb.y + pb.height / 2)| < 2)

/-- Horizontal-arrangement tally: not centered, top edge within 5px. -/
def topAlignedH (pb b : BBox) : Bool :=
  !centeredH pb b && decide (|b.y - pb.y| < 5)

/-- Horizontal-arrangement tally: not centered, not top, bottom edge within 5px. -/
def bottomAlignedH (pb b : BBox) : Bool :=
  !centeredH pb b && !(decide (|b.y - pb.y| < 5)) &&
    decide (|b.y + b.height - (pb.y + pb.height)| < 5)

/-- The alignItems cascade shared by both branches of detectAlignment, as the
source orders it: the 0.6 / 0.5 threshold tests in the order center, start,
end; then center only when strictly ahead of both other counts; then the
start / end comparison; finally the stretch test. -/
def alignItemsCascade (total c l r : ℕ) (stretchOK : Bool) : String :=
  let th : ℚ := if total ≥ 3 then 3/5 else 1/2
  if (c : ℚ) ≥ (total : ℚ) * th then "center"
  else if (l : ℚ) ≥ (total : ℚ) * th then "flex-start"
  else if (r : ℚ) ≥ (total : ℚ) * th then "flex-end"
  else if c > l ∧ c > r then "center"
  else if l > r then "flex-start"
  else if r > l then "flex-end"
  else if stretchOK then "stretch" else "flex-start"

/-- The justifyContent cascade of the vertical branch of detectAlignment. -/
def justifyContentV (pb : BBox) (boxes : List BBox) : String :=
  let sorted := sortByY boxes
  let firstChild := sorted.headD ⟨0, 0, 0, 0⟩
  let lastChild := sorted.getLastD ⟨0, 0, 0, 0⟩
  let topGap := firstChild.y - pb.y
  let bottomGap := pb.y + pb.height - (lastChild.y + lastChild.height)
  let gapDifference := |topGap - bottomGap|
  let totalGap := topGap + bottomGap
  let contentHeight := lastChild.y + lastChild.height - firstChild.y
  if contentHeight > pb.height * (4/5) then "flex-start"
  else if totalGap > 0 ∧ gapDifference < totalGap * (3/20) then "center"
  else if topGap < 40 then "flex-start"
  else if bottomGap < 40 then "flex-end"
  else if topGap < bottomGap * (7/10) then "flex-start"
  else if bottomGap < topGap * (7/10) then "flex-end"
  else "flex-start"

/-- The justifyContent cascade of the horizontal branch of detectAlignment
(including the space-between detection); returns none when no branch fires. -/
def justifyContentH (pb : BBox) (boxes : List BBox) : Option String :=
  let sorted := sortByX boxes
  let firstChild := sorted.headD ⟨0, 0, 0, 0⟩
  let lastChild := sorted.getLastD ⟨0, 0, 0, 0⟩
  let leftGap := firstChild.x - pb.x
  let rightGap := pb.x + pb.width - (lastChild.x + lastChild.width)
  if |leftGap - rightGap| < 20 then some "center"
  else if leftGap < 20 then some "flex-start"
  else if rightGap < 20 then some "flex-end"
  else if boxes.length ≥ 2 then
    let totalChildWidth := (boxes.map BBox.width).sum
    let averageGap := (pb.width - totalChildWidth) / ((boxes.length : ℚ) + 1)
    if |leftGap - averageGap| < 10 ∧ |rightGap - averageGap| < 10 then
      some "space-between"
    else none
  else none

/-- Parser.detectAlignment. -/
def detectAlignment (parent : FigmaNode) (children : List FigmaNode)
    (arr : Arrangement) : AlignResult :=
  match parent.data.absoluteBoundingBox with
  | none => .empty
  | some pb =>
    if children.length = 0 then .empty
    else
      let boxes := boxesOf children
      if boxes.length = 0 then .empty
      else
        match arr with
        | .vertical =>
          let total := boxes.length
          let c := boxes.countP (centeredV pb)
          let l := boxes.countP (leftAlignedV pb)
          let r := boxes.countP (rightAlignedV pb)
          let stretchOK := boxes.all (fun b => decide (|b.width - pb.width| < 10))
          { alignItems := some (alignItemsCascade total c l r stretchOK),
            justifyContent := some (justifyContentV pb boxes) }
        | .horizontal =>
          let total := boxes.length
          let c := boxes.countP (centeredH pb)
          let l := boxes.countP (topAlignedH pb)
          let r := boxes.countP (bottomAlignedH pb)
          let stretchOK := boxes.all (fun b => decide (|b.height - pb.height| < 10))
          { alignItems := some (alignItemsCascade total c l r stretchOK),
            justifyContent := justifyContentH pb boxes }
        | .complex => .empty

/-- Padding record {top, right, bottom, left}. -/
structure Padding where
  top : ℚ
  right : ℚ
  bottom : ℚ
  left : ℚ
deriving DecidableEq

/-- Parser.calculatePadding: the enclosing box of the boxed children against
the parent box, each side floored at 0 and rounded to two decimals. -/
def calculatePadding (parent : FigmaNode) (children : List FigmaNode) :
    Option Padding :=
  match parent.data.absoluteBoundingBox with
  | none => none
  | some pb =>
    if children.length = 0 then none
    else
      match boxesOf children with
      | [] => none
      | b :: bs =>
        let minX := bs.foldl (fun acc c => min acc c.x) b.x
        let minY := bs.foldl (fun acc c => min acc c.y) b.y
        let maxX := bs.foldl (fun acc c => max acc (c.x + c.width)) (b.x + b.width)
        let maxY := bs.foldl (fun acc c => max acc (c.y + c.height)) (b.y + b.height)
        some
          { top := max 0 (round2 (minY - pb.y)),
            right := max 0 (round2 (pb.x + pb.width - maxX)),
            bottom := max 0 (round2 (pb.y + pb.height - maxY)),
            left := max 0 (round2 (minX - pb.x)) }

/-- Parser.mapPrimaryAxisAlignment. -/
def mapPrimaryAxisAlignment (a : String) : String :=
  if a = "MIN" then "flex-start"
  else if a = "CENTER" then "center"
  else if a = "MAX" then "flex-end"
  else if a = "SPACE_BETWEEN" then "space-between"
  else "flex-start"

/-- Parser.mapCounterAxisAlignment. -/
def mapCounterAxisAlignment (a : String) : String :=
  if a = "MIN" then "flex-start"
  else if a = "CENTER" then "center"
  else if a = "MAX" then "flex-end"
  else "flex-start"

/-- Style properties kept on a parsed node (fills / strokes / effects are
already filtered down to the visible ones). -/
structure StyleProperties where
  fills : List Paint
  strokes : List Paint
  effects : List Paint
  opacity : ℚ
  blendMode : String
  cornerRadius : Option ℚ
deriving DecidableEq

/-- A point (the position field of LayoutProperties). -/
structure Point where
  x : ℚ
  y : ℚ
deriving DecidableEq

/-- The per-node layout decision of the parser. -/
structure LayoutProperties where
  strategy : LayoutStrategy
  position : Option Point
  width : Option ℚ
  height : Option ℚ
  flexDirection : Option String
  gap : Option ℚ
  padding : Option Padding
  justifyContent : Option String
  alignItems : Option String
  constraints : Option Constraints
deriving DecidableEq

/-- Parser.extractStyles. -/
def extractStyles (n : FigmaNode) : StyleProperties :=
  { fills := (n.data.fills.getD []).filter (fun f => f.visible ≠ some false),
    strokes := [],
    effects := [],
    opacity := 1,
    blendMode := "NORMAL",
    cornerRadius := none }

/-- Parser.extractLayout. -/
def extractLayout (n : FigmaNode) : LayoutProperties :=
  let strategy := determineLayoutStrategy n
  let position := n.data.absoluteBoundingBox.map (fun b => Point.mk b.x b.y)
  let width := n.data.absoluteBoundingBox.map BBox.width
  let height := n.data.absoluteBoundingBox.map BBox.height
  let constraints := n.data.constraints
  if declaredAutoLayout n then
    { strategy := strategy, position := position, width := width, height := height,
      flexDirection :=
        some (if n.data.layoutMode = some "HORIZONTAL" then "row" else "column"),
      gap := some (n.data.itemSpacing.getD 0),
      padding := some
        { top := n.data.paddingTop.getD 0, right := n.data.paddingRight.getD 0,
          bottom := n.data.paddingBottom.getD 0, left := n.data.paddingLeft.getD 0 },
      justifyContent :=
        match n.data.primaryAxisAlignItems with
        | some a => if a = "" then none else some (mapPrimaryAxisAlignment a)
        | none => none,
      alignItems :=
        match n.data.counterAxisAlignItems with
        | some a => if a = "" then none else some (mapCounterAxisAlignment a)
        | none => none,
      constraints := constraints }
  else if strategy = .Flexbox ∧ n.children.length > 1 then
    let arr := detectChildArrangement n.children
    let gapsAverage := calculateChildGaps n.children arr
    let alignment := detectAlignment n n.children arr
    { strategy := strategy, position := position, width := width, height := height,
      flexDirection := some (if arr = .horizontal then "row" else "column"),
      gap := if gapsAverage > 1/2 then some gapsAverage else none,
      padding := calculatePadding n n.children,
      alignItems :=
        match alignment.alignItems with
        | some a => some a
        | none => if arr = .vertical then some "center" else none,
      justifyContent := alignment.justifyContent,
      constraints := constraints }
  else
    { strategy := strategy, position := position, width := width, height := height,
      flexDirection := none, gap := none, padding := none,
      justifyContent := none, alignItems := none, constraints := constraints }

/-- The scalar data of a parsed node (src/server/src/types/internal.ts,
ParsedNode minus the children list). -/
structure PData where
  id : String
  name : String
  ntype : String
  bounds : BBox
  styles : StyleProperties
  layout : LayoutProperties
  componentName : Option String
  componentType : Option String
  textContent : Option String
deriving DecidableEq

/-- A parsed node: scalar data plus the ordered children list. -/
inductive ParsedNode where
  | mk (data : PData) (children : List ParsedNode)

instance : Inhabited ParsedNode :=
  ⟨.mk ⟨"", "", "", ⟨0, 0, 0, 0⟩,
        ⟨[], [], [], 1, "NORMAL", none⟩,
        ⟨.Static, none, none, none, none, none, none, none, none, none⟩,
        none, none, none⟩ []⟩

/-- Scalar data of a parsed node. -/
def ParsedNode.data : ParsedNode → PData
  | .mk d _ => d

/-- Children of a parsed node. -/
def ParsedNode.children : ParsedNode → List ParsedNode
  | .mk _ cs => cs

/-- Parser.getDefaultStyles. -/
def getDefaultStyles : StyleProperties :=
  { fills := [], strokes := [], effects := [], opacity := 1,
    blendMode := "NORMAL", cornerRadius := none }

/-- Parser.getDefaultLayout. -/
def getDefaultLayout : LayoutProperties :=
  { strategy := .Static, position := none, width := none, height := none,
    flexDirection := none, gap := none, padding := none,
    justifyContent := none, alignItems := none, constraints := none }

/-- Parser.detectComponentType. -/
def detectComponentType (name : String) : Option String :=
  let d := jsToLowerData name
  if hasSub "button".data d || hasSub "btn".data d then some "button"
  else if hasSub "input".data d || hasSub "textfield".data d ||
      hasSub "text field".data d then some "input"
  else if hasSub "card".data d then some "card"
  else if hasSub "modal".data d || hasSub "dialog".data d then some "modal"
  else if hasSub "nav".data d || hasSub "menu".data d then some "nav"
  else none

/-- An entry of the components record handed to Parser.parse. The record is
typed Record of string to any in the source, so the name of an entry may be
anything; name = none models an entry whose name is not a string, on which
detectComponentType (name.toLowerCase()) raises a TypeError at runtime. -/
structure ComponentEntry where
  name : Option String
deriving DecidableEq

/-- Lookup in the components record. -/
def lookupComponent (comps : List (String × ComponentEntry)) (cid : String) :
    Option ComponentEntry :=
  (comps.find? (fun e => e.1 = cid)).map (·.2)

/-- The component-instance step of Parser.parseNode: for an INSTANCE node with
a componentId found in the record it yields the componentName and the detected
componentType; it is the one statement of the guarded parseNode body that can
throw (component.name.toLowerCase() on a malformed record entry). -/
def instanceInfo (comps : List (String × ComponentEntry)) (d : FigmaNodeData) :
    Except String (Option (String × Option String)) :=
  if d.ntype = "INSTANCE" then
    match d.componentId with
    | some cid =>
      match lookupComponent comps cid with
      | some comp =>
        match comp.name with
        | some nm => .ok (some (nm, detectComponentType nm))
        | none => .error "TypeError: name.toLowerCase is not a function"
      | none => .ok none
    | none => .ok none
  else .ok none

/-- Does parsing this node's own fields throw (Parser.parseNode reaches its
catch block for this node itself)? -/
def nodeThrows (comps : List (String × ComponentEntry)) (n : FigmaNode) : Bool :=
  match instanceInfo comps n.data with
  | .error _ => true
  | .ok _ => false

/-- The minimal valid node returned by the catch block of Parser.parseNode. -/
def minimalParsedNode (d : FigmaNodeData) : ParsedNode :=
  .mk { id := d.id, name := d.name, ntype := d.ntype,
        bounds := ⟨0, 0, 0, 0⟩,
        styles := getDefaultStyles, layout := getDefaultLayout,
        componentName := none, componentType := none, textContent := none } []

/-- The warning text pushed by the catch block of Parser.parseNode. -/
def parseErrorMsg (d : FigmaNodeData) (e : String) : String :=
  "Error parsing node " ++ d.id ++ " (" ++ d.name ++ "): " ++ e

mutual
/-- Parser.parseNode. The parser's mutable warning accumulator
(this.warnings, returned by getWarnings) is threaded as an explicit list;
each call returns the parsed node and the updated warning list. -/
def parseNode (comps : List (String × ComponentEntry)) :
    FigmaNode → List String → ParsedNode × List String
  | .mk d cs, ws =>
    match instanceInfo comps d with
    | .error e => (minimalParsedNode d, ws ++ [parseErrorMsg d e])
    | .ok info =>
      let node := FigmaNode.mk d cs
      let rest := parseNodeList comps cs ws
      (.mk { id := d.id, name := d.name, ntype := d.ntype,
             bounds := d.absoluteBoundingBox.getD ⟨0, 0, 0, 0⟩,
             styles := extractStyles node,
             layout := extractLayout node,
             componentName := info.map (·.1),
             componentType := info.bind (·.2),
             textContent :=
               if d.ntype = "TEXT" then
                 match d.characters with
                 | some s => if s = "" then none else some s
                 | none => none
               else none } rest.1, rest.2)
/-- Parser.parseNode mapped over a children list, threading the warnings. -/
def parseNodeList (comps : List (String × ComponentEntry)) :
    List FigmaNode → List String → List ParsedNode × List String
  | [], ws => ([], ws)
  | c :: cs, ws =>
    let r1 := parseNode comps c ws
    let r2 := parseNodeList comps cs r1.2
    (r1.1 :: r2.1, r2.2)
end

/-- Parser.isVisuallyContained. -/
def isVisuallyContained (child parent : ParsedNode) : Bool :=
  let childBounds := child.data.bounds
  let parentBounds := parent.data.bounds
  let isDecorativeLine := decide (childBounds.height < 10 ∧ childBounds.width > 20)
  let isDecorativeContainer :=
    decide (childBounds.height < 30) && nameHasIndicator child.data.name
  let tolerance : ℚ := if isDecorativeLine || isDecorativeContainer then 30 else 10
  let isInsideX :=
    decide (childBounds.x ≥ parentBounds.x - tolerance ∧
      childBounds.x + childBounds.width ≤ parentBounds.x + parentBounds.width + tolerance)
  let isInsideY :=
    decide (childBounds.y ≥ parentBounds.y - tolerance ∧
      childBounds.y + childBounds.height ≤ parentBounds.y + parentBounds.height + tolerance)
  let hasBackground := decide (parent.data.styles.fills.length > 0)
  let isSmaller :=
    decide (childBounds.width < parentBounds.width * (19/20) ∧
      childBounds.height < parentBounds.height * (19/20))
  if (isDecorativeLine || isDecorativeContainer) && isInsideX && isInsideY then true
  else isInsideX && isInsideY && hasBackground && isSmaller

/-- The first sibling (in scan order, skipping the child itself) that visually
contains the child at index i, the source's inner j-loop. -/
def targetIdx (cs : List ParsedNode) (i : ℕ) : Option ℕ :=
  (List.range cs.length).find?
    (fun j => decide (j ≠ i) && isVisuallyContained (cs.getD i default) (cs.getD j default))

/-- Iterated targetIdx: follow the relocation targets k steps. -/
def iterTgt (cs : List ParsedNode) : ℕ → ℕ → Option ℕ
  | 0, i => some i
  | k + 1, i => (targetIdx cs i).bind (iterTgt cs k)

/-- The node at index j together with every child regrouped into it, resolved
recursively (a child moved into j may itself have received other children).
The relocated children are appended after the existing ones in scan order,
as the source's pushes produce. The fuel bounds the resolution depth; at
fuel cs.length it covers every chain of relocations that ends at a node that
stays in the sibling list, which are exactly the chains reachable in the
output tree. -/
def attachExtras (cs : List ParsedNode) : ℕ → ℕ → ParsedNode
  | 0, j => cs.getD j default
  | fuel + 1, j =>
    let base := cs.getD j default
    .mk base.data
      (base.children ++
        ((List.range cs.length).filter (fun m => targetIdx cs m = some j)).map
          (attachExtras cs fuel))

/-- One regrouping pass over a sibling list (the body of
Parser.regroupByVisualContainment at one level, after the recursion): siblings
that were regrouped somewhere disappear from the list, the rest keep their
order and absorb the children regrouped into them. -/
def levelPass (cs : List ParsedNode) : List ParsedNode :=
  ((List.range cs.length).filter (fun i => targetIdx cs i = none)).map
    (attachExtras cs cs.length)

mutual
/-- Parser.regroupByVisualContainment: post-order recursion, then the
regrouping pass at the current level. -/
def regroup : ParsedNode → ParsedNode
  | .mk d cs => .mk d (levelPass (regroupList cs))
/-- regroupByVisualContainment applied to each tree of a list. -/
def regroupList : List ParsedNode → List ParsedNode
  | [] => []
  | c :: cs => regroup c :: regroupList cs
end

/-- Parser.parse: parse the document, then fix the structure by visual
containment; returns the root node and the warnings (getWarnings). -/
def parseFile (comps : List (String × ComponentEntry)) (document : FigmaNode) :
    ParsedNode × List String :=
  let (root, ws) := parseNode comps document []
  (regroup root, ws)

mutual
/-- All node ids of a parsed tree, root first. -/
def allIds : ParsedNode → List String
  | .mk d cs => d.id :: allIdsList cs
/-- All node ids of a forest. -/
def allIdsList : List ParsedNode → List String
  | [] => []
  | c :: cs => allIds c ++ allIdsList cs
end

mutual
/-- No node of the tree is an ancestor of a node with its own id: at every
subtree, the root id does not occur among the ids of its strict descendants.
With globally distinct ids (the Node data model of the specification), this
is the value-level reading of "no node is its own ancestor". -/
def noSelfAnc : ParsedNode → Bool
  | .mk d cs => !((allIdsList cs).contains d.id) && noSelfAncList cs
/-- noSelfAnc over a forest. -/
def noSelfAncList : List ParsedNode → Bool
  | [] => true
  | c :: cs => noSelfAnc c && noSelfAncList cs
end

mutual
/-- Height of a parsed tree (an observable separating trees). -/
def depthP : ParsedNode → ℕ
  | .mk _ cs => 1 + depthList cs
/-- Height of a forest. -/
def depthList : List ParsedNode → ℕ
  | [] => 0
  | c :: cs => max (depthP c) (depthList cs)
end

/-- A CSS length value as the emitter produces it: a pixel count or a
percentage (the string 0 of the constraint branches is px 0). -/
inductive Len where
  | px (q : ℚ)
  | pct (q : ℚ)
deriving DecidableEq

/-- A transform step: translateX(-50%) or translateY(-50%); the emitter only
ever concatenates these two. -/
inductive TOp where
  | txNeg50
  | tyNeg50
deriving DecidableEq

/-- The padding shorthand as emitted: one, two or four values. -/
inductive PadShorthand where
  | one (a : ℚ)
  | two (v h : ℚ)
  | four (t r b l : ℚ)
deriving DecidableEq

/-- The CSS properties LayoutEngine.generateLayoutCSS writes; absent fields
are none. -/
structure CSSProperties where
  position : Option String := none
  left : Option Len := none
  top : Option Len := none
  right : Option Len := none
  bottom : Option Len := none
  width : Option Len := none
  height : Option Len := none
  minHeight : Option Len := none
  display : Option String := none
  flexDirection : Option String := none
  gap : Option ℚ := none
  padding : Option PadShorthand := none
  alignItems : Option String := none
  justifyContent : Option String := none
  alignSelf : Option String := none
  order : Option String := none
  marginTop : Option String := none
  transform : Option (List TOp) := none
  overflow : Option String := none
deriving DecidableEq

/-- Is the (optional) parent a Flexbox node? -/
def parentIsFlexbox (parentNode : Option ParsedNode) : Bool :=
  match parentNode with
  | some p => p.data.layout.strategy = .Flexbox
  | none => false

/-- isDecorativeLine of LayoutEngine.generateLayoutCSS (line 14):
layout.height && layout.height < 10 && layout.width && layout.width > 20,
with JS truthiness on the numeric fields. -/
def isDecorativeLineCSS (layout : LayoutProperties) : Bool :=
  match layout.height, layout.width with
  | some h, some w => decide (h ≠ 0 ∧ h < 10 ∧ w ≠ 0 ∧ w > 20)
  | _, _ => false

/-- isDecorativeContainer of LayoutEngine.generateLayoutCSS (line 15):
layout.height && layout.height < 30 && name includes indicator. -/
def isDecorativeContainerCSS (layout : LayoutProperties) (name : String) : Bool :=
  match layout.height with
  | some h => decide (h ≠ 0 ∧ h < 30) && nameHasIndicator name
  | none => false

/-- The strategy the switch of generateLayoutCSS dispatches on, after the
decorative-in-flexbox override (lines 19-23). -/
def effectiveStrategy (node : ParsedNode) (parentNode : Option ParsedNode) :
    LayoutStrategy :=
  let layout := node.data.layout
  if (isDecorativeLineCSS layout || isDecorativeContainerCSS layout node.data.name) &&
      parentIsFlexbox parentNode && decide (layout.strategy = .Absolute) then
    .Static
  else layout.strategy

/-- LayoutEngine.applyAbsoluteLayout. -/
def applyAbsoluteLayout (css : CSSProperties) (layout : LayoutProperties)
    (node : ParsedNode) (parentNode : Option ParsedNode) : CSSProperties :=
  match parentNode with
  | some parent =>
    let css := { css with position := some "absolute" }
    match layout.position, parent.data.layout.position with
    | some pos, some ppos =>
      let x := round2 (pos.x - ppos.x)
      let y := round2 (pos.y - ppos.y)
      let isDecorativeContainer := isDecorativeContainerCSS layout node.data.name
      let parentWidth := (parent.data.layout.width).getD 0
      let elementWidth := layout.width.getD 0
      if isDecorativeContainer && decide (parentWidth > 0 ∧ elementWidth > 0) then
        let centerX := (parentWidth - elementWidth) / 2
        if decide (|x - centerX| < 10) || decide (elementWidth = parentWidth) then
          { css with left := some (.pct 50), transform := some [.txNeg50],
                     top := some (.px y) }
        else { css with left := some (.px x), top := some (.px y) }
      else { css with left := some (.px x), top := some (.px y) }
    | _, _ => css
  | none => { css with position := some "relative", overflow := some "hidden" }

/-- LayoutEngine.applyFlexboxLayout. -/
def applyFlexboxLayout (css : CSSProperties) (layout : LayoutProperties) :
    CSSProperties :=
  let dir :=
    match layout.flexDirection with
    | some s => if s = "" then "column" else s
    | none => "column"
  let css := { css with display := some "flex", flexDirection := some dir }
  let css :=
    match layout.gap with
    | some g => if g > 0 then { css with gap := some (round2 g) } else css
    | none => css
  let css :=
    match layout.padding with
    | some p =>
      let pt := round2 p.top
      let pr := round2 p.right
      let pb := round2 p.bottom
      let pl := round2 p.left
      if pt = pr ∧ pr = pb ∧ pb = pl then
        if pt > 0 then { css with padding := some (.one pt) } else css
      else if pt = pb ∧ pl = pr then
        if pt > 0 ∨ pl > 0 then { css with padding := some (.two pt pr) } else css
      else { css with padding := some (.four pt pr pb pl) }
    | none => css
  let css :=
    match layout.alignItems with
    | some a => if a = "" then css else { css with alignItems := some a }
    | none => css
  match layout.justifyContent with
  | some j => if j = "" then css else { css with justifyContent := some j }
  | none => css

/-- LayoutEngine.applyGridLayout. -/
def applyGridLayout (css : CSSProperties) (layout : LayoutProperties) :
    CSSProperties :=
  let css := { css with display := some "grid" }
  let css :=
    match layout.gap with
    | some g => if g > 0 then { css with gap := some g } else css
    | none => css
  match layout.padding with
  | some p => { css with padding := some (.four p.top p.right p.bottom p.left) }
  | none => css

/-- LayoutEngine.applyStaticLayout. -/
def applyStaticLayout (css : CSSProperties) (layout : LayoutProperties) :
    CSSProperties :=
  match layout.padding with
  | some p => { css with padding := some (.four p.top p.right p.bottom p.left) }
  | none => css

/-- The width application of generateLayoutCSS (lines 41-45). -/
def applyWidthStep (css : CSSProperties) (layout : LayoutProperties) :
    CSSProperties :=
  match layout.width with
  | some w => if w > 0 then { css with width := some (.px (round2 w)) } else css
  | none => css

/-- The decorative / centered handling of generateLayoutCSS (lines 47-99):
align-self centering, order and margin pushing inside flex columns (with the
deletion of position, left and top), and the 50 percent left override for
absolutely positioned decorative lines. -/
def applyCenteringStep (node : ParsedNode) (parentNode : Option ParsedNode)
    (css : CSSProperties) : CSSProperties :=
  let layout := node.data.layout
  match parentNode with
  | none => css
  | some parent =>
    match layout.width, layout.height, layout.position,
        parent.data.layout.position, parent.data.layout.width with
    | some w, some h, some pos, some ppos, some pw =>
      if decide (w ≠ 0 ∧ h ≠ 0 ∧ pw ≠ 0) then
        let relativeX := pos.x - ppos.x
        let centerX := (pw - w) / 2
        let isCentered := decide (|relativeX - centerX| < 5)
        let isDecLine := decide (h < 10 ∧ w > 20 ∧ w < pw * (4/5))
        let isDecCont := decide (h < 30) && nameHasIndicator node.data.name
        let isSmallElement := decide (w < 150 ∧ h < 10)
        let css :=
          if parent.data.layout.strategy = .Flexbox ∧
              parent.data.layout.flexDirection = some "column" then
            if isDecLine || isDecCont then
              let css := { css with alignSelf := some "center" }
              let css :=
                match parent.data.layout.height with
                | some ph =>
                  if ph ≠ 0 then
                    if pos.y - ppos.y > ph * (1/2) then
                      { css with order := some "999", marginTop := some "auto" }
                    else css
                  else css
                | none => css
              { css with position := none, left := none, top := none }
            else if isCentered then { css with alignSelf := some "center" }
            else css
          else css
        if layout.strategy = .Absolute ∧
            (isDecLine || (isSmallElement && isCentered)) = true then
          { css with left := some (.pct 50), transform := some [.txNeg50] }
        else css
      else css
    | _, _, _, _, _ => css

/-- The height application of generateLayoutCSS (lines 101-116): a defined
positive height becomes min-height for Flexbox and a fixed height for the
other strategies, rounded to two decimals; the branch reads the declared
strategy of the node, not the effective one. -/
def applyHeightStep (css : CSSProperties) (layout : LayoutProperties) :
    CSSProperties :=
  match layout.height with
  | some h =>
    if h > 0 then
      if layout.strategy = .Flexbox then
        { css with minHeight := some (.px (round2 h)) }
      else if layout.strategy = .Absolute then
        { css with height := some (.px (round2 h)) }
      else
        { css with height := some (.px (round2 h)) }
    else css
  | none => css

/-- LayoutEngine.applyConstraints. -/
def applyConstraints (css : CSSProperties) (c : Constraints) : CSSProperties :=
  let css :=
    if c.horizontal = "RIGHT" then { css with right := some (.px 0), left := none }
    else if c.horizontal = "CENTER" then
      { css with left := some (.pct 50), transform := some [.txNeg50] }
    else if c.horizontal = "LEFT_RIGHT" then
      { css with left := some (.px 0), right := some (.px 0), width := none }
    else if c.horizontal = "SCALE" then
      match css.width with
      | some _ => { css with width := some (.pct 100) }
      | none => css
    else css
  if c.vertical = "BOTTOM" then { css with bottom := some (.px 0), top := none }
  else if c.vertical = "CENTER" then
    let tr :=
      match css.transform with
      | some ops => ops ++ [TOp.tyNeg50]
      | none => [TOp.tyNeg50]
    { css with top := some (.pct 50), transform := some tr }
  else if c.vertical = "TOP_BOTTOM" then
    { css with top := some (.px 0), bottom := some (.px 0), height := none }
  else if c.vertical = "SCALE" then
    match css.height with
    | some _ => { css with height := some (.pct 100) }
    | none => css
  else css

/-- The strategy switch of generateLayoutCSS (lines 25-38), dispatching on
the effective strategy. -/
def applyStrategySwitch (s : LayoutStrategy) (css : CSSProperties)
    (layout : LayoutProperties) (node : ParsedNode)
    (parentNode : Option ParsedNode) : CSSProperties :=
  match s with
  | .Absolute => applyAbsoluteLayout css layout node parentNode
  | .Flexbox => applyFlexboxLayout css layout
  | .Grid => applyGridLayout css layout
  | .Static => applyStaticLayout css layout

/-- LayoutEngine.generateLayoutCSS. -/
def generateLayoutCSS (node : ParsedNode) (parentNode : Option ParsedNode) :
    CSSProperties :=
  let layout := node.data.layout
  let css1 := applyStrategySwitch (effectiveStrategy node parentNode) {} layout
    node parentNode
  let css2 := applyWidthStep css1 layout
  let css3 := applyCenteringStep node parentNode css2
  let css4 := applyHeightStep css3 layout
  match layout.constraints with
  | some c => applyConstraints css4 c
  | none => css4

/-- The strategy cascade exactly as claim C2 states it (no own-bounding-box
requirement on the Absolute and detected-Flexbox branches). -/
def claimStrategyC2 (n : FigmaNode) : LayoutStrategy :=
  if declaredAutoLayout n then .Flexbox
  else if 2 ≤ (boxesOf n.children).length ∧
      (detectChildArrangement n.children = .vertical ∨
        detectChildArrangement n.children = .horizontal) then .Flexbox
  else if n.children.length > 0 then .Absolute
  else .Static

/-- The strategy cascade as the code implements it: the detected-Flexbox and
Absolute branches additionally require the node to carry its own bounding
box; a node with children but no box is Static. -/
def amendedStrategyC2 (n : FigmaNode) : LayoutStrategy :=
  if declaredAutoLayout n then .Flexbox
  else if n.data.absoluteBoundingBox.isSome ∧ 2 ≤ (boxesOf n.children).length ∧
      (detectChildArrangement n.children = .vertical ∨
        detectChildArrangement n.children = .horizontal) then .Flexbox
  else if n.data.absoluteBoundingBox.isSome ∧ n.children.length > 0 then .Absolute
  else .Static

/-- The alignItems vote exactly as claim C5 states it: the threshold table,
then the raw maximum with center preferred over start and start over end on
exact ties, the stretch test only when all three counts tie exactly. -/
def claimAlignVote (total c l r : ℕ) (stretchOK : Bool) : String :=
  let th : ℚ := if total ≥ 3 then 3/5 else 1/2
  if (c : ℚ) ≥ (total : ℚ) * th then "center"
  else if (l : ℚ) ≥ (total : ℚ) * th then "flex-start"
  else if (r : ℚ) ≥ (total : ℚ) * th then "flex-end"
  else if c = l ∧ l = r then (if stretchOK then "stretch" else "flex-start")
  else if c ≥ l ∧ c ≥ r then "center"
  else if l ≥ r then "flex-start"
  else "flex-end"

/-- Decorative as stated in the specification's containment rule. -/
def specDecorative (b : BBox) (nm : String) : Prop :=
  (b.height < 10 ∧ b.width > 20) ∨ (b.height < 30 ∧ nameHasIndicator nm = true)

/-- Containment within the candidate's bounds expanded by tol on every side. -/
def specContained (tol : ℚ) (cb pb : BBox) : Prop :=
  cb.x ≥ pb.x - tol ∧ cb.x + cb.width ≤ pb.x + pb.width + tol ∧
  cb.y ≥ pb.y - tol ∧ cb.y + cb.height ≤ pb.y + pb.height + tol

/-- Strictly smaller than the candidate on both axes (under 95 percent). -/
def specSmaller (cb pb : BBox) : Prop :=
  cb.width < pb.width * (19/20) ∧ cb.height < pb.height * (19/20)

/-- Decorative exactly as claim C7 states it: a plain comparison on the
present dimensions, with no truthiness test (so height 0 qualifies). -/
def claimDecorativeC7 (layout : LayoutProperties) (nm : String) : Prop :=
  (∃ h w, layout.height = some h ∧ layout.width = some w ∧ h < 10 ∧ w > 20) ∨
  (∃ h, layout.height = some h ∧ h < 30 ∧ nameHasIndicator nm = true)

/-- Decorative as the LayoutEngine override computes it (JS truthiness on
height and width before the comparisons). -/
def codeDecorativeC7 (layout : LayoutProperties) (nm : String) : Bool :=
  isDecorativeLineCSS layout || isDecorativeContainerCSS layout nm

/-- The fixed message of the one throw site inside the guarded region of
Parser.parseNode (component.name.toLowerCase() on a malformed entry). -/
def throwMsg : String := "TypeError: name.toLowerCase is not a function"

/-- A FigmaNodeData with the given id (also used as name) and bounding box,
every other field absent. -/
def baseFNData (idn : String) (bb : Option BBox) : FigmaNodeData :=
  { id := idn, name := idn, ntype := "FRAME", absoluteBoundingBox := bb,
    fills := none, layoutMode := none, itemSpacing := none,
    paddingTop := none, paddingRight := none, paddingBottom := none,
    paddingLeft := none, primaryAxisAlignItems := none,
    counterAxisAlignItems := none, characters := none, componentId := none,
    constraints := none }

/-- A childless Figma node with a bounding box. -/
def leafFN (idn : String) (bb : BBox) : FigmaNode := .mk (baseFNData idn (some bb)) []

/-- Counterexample input for C2: no own bounding box, one boxed child. -/
def c2node : FigmaNode := .mk (baseFNData "c2p" none) [leafFN "c2a" ⟨0, 0, 10, 10⟩]

/-- Parent box of the C5 counterexample. -/
def c5pb : BBox := ⟨0, 0, 100, 300⟩

/-- Children of the C5 counterexample: one centered child, one left-aligned
child, one child matching no category. -/
def c5children : List FigmaNode :=
  [leafFN "c5a" ⟨10, 0, 80, 50⟩, leafFN "c5b" ⟨0, 60, 30, 50⟩,
   leafFN "c5c" ⟨40, 120, 30, 50⟩]

/-- Parent node of the C5 counterexample. -/
def c5parent : FigmaNode := .mk (baseFNData "c5p" (some c5pb)) c5children

/-- Witness input for C9: three stacked children with a uniform 0.4px gap. -/
def c9node : FigmaNode :=
  .mk (baseFNData "c9p" (some ⟨0, 0, 100, 40⟩))
    [leafFN "c9a" ⟨0, 0, 100, 10⟩, leafFN "c9b" ⟨0, 10.4, 100, 10⟩,
     leafFN "c9c" ⟨0, 20.8, 100, 10⟩]

/-- The components record of the C8 witness: the entry c1 is malformed (its
name is not a string). -/
def comps0 : List (String × ComponentEntry) := [("c1", ⟨none⟩)]

/-- An INSTANCE node whose component lookup hits the malformed entry, so its
field processing throws. -/
def badInstance : FigmaNode :=
  .mk { baseFNData "bad" none with ntype := "INSTANCE", componentId := some "c1" } []

/-- A well-formed sibling of the failing node. -/
def goodLeaf : FigmaNode := leafFN "good" ⟨0, 0, 10, 10⟩

/-- A parsed node with the given id (also used as name), bounds, fills and
children, default everything else. -/
def mkPN (idn : String) (b : BBox) (fl : List Paint) (cs : List ParsedNode) :
    ParsedNode :=
  .mk { id := idn, name := idn, ntype := "FRAME", bounds := b,
        styles := { getDefaultStyles with fills := fl },
        layout := getDefaultLayout,
        componentName := none, componentType := none, textContent := none } cs

/-- Counterexample input for C1 idempotence: A is visually contained in the
filled sibling B; B already holds a filled child C that also contains A, so
the first pass moves A into B and only the second pass moves it into C. -/
def c1tree : ParsedNode :=
  mkPN "P" ⟨0, 0, 200, 200⟩ []
    [mkPN "A" ⟨20, 20, 30, 30⟩ [] [],
     mkPN "B" ⟨0, 0, 100, 100⟩ [⟨none⟩] [mkPN "C" ⟨10, 10, 80, 80⟩ [⟨none⟩] []]]

/-- Layout of the C7 counterexample node: Absolute strategy, width 30 and
height 0 (decorative by the claim's reading, not by the code's truthiness). -/
def c7layout : LayoutProperties :=
  { getDefaultLayout with
    strategy := .Absolute, position := some ⟨10, 10⟩,
    width := some 30, height := some 0 }

/-- The C7 counterexample node. -/
def c7node : ParsedNode :=
  .mk { id := "c7", name := "bar", ntype := "RECTANGLE", bounds := ⟨10, 10, 30, 0⟩,
        styles := getDefaultStyles, layout := c7layout,
        componentName := none, componentType := none, textContent := none } []

/-- Layout of the C7 flexbox-column parent. -/
def c7parentLayout : LayoutProperties :=
  { getDefaultLayout with
    strategy := .Flexbox, position := some ⟨0, 0⟩,
    width := some 200, height := some 400, flexDirection := some "column" }

/-- The C7 parent node (Flexbox strategy). -/
def c7parent : ParsedNode :=
  .mk { id := "c7p", name := "screen", ntype := "FRAME", bounds := ⟨0, 0, 200, 400⟩,
        styles := getDefaultStyles, layout := c7parentLayout,
        componentName := none, componentType := none, textContent := none } []

/-- Witness node for the amended C7: a 40 by 4 bar with a present nonzero
height, Absolute strategy. -/
def c7wnode : ParsedNode :=
  .mk { id := "c7w", name := "bar2", ntype := "RECTANGLE", bounds := ⟨10, 10, 40, 4⟩,
        styles := getDefaultStyles,
        layout := { getDefaultLayout with
          strategy := .Absolute,
          position := some ⟨10, 10⟩, width := some 40, height := some 4 },
        componentName := none, componentType := none, textContent := none } []

/-- Witness node for C10: a Flexbox node with height 100.5. -/
def c10node : ParsedNode :=
  .mk { id := "c10", name := "col", ntype := "FRAME", bounds := ⟨0, 0, 50, 100.5⟩,
        styles := getDefaultStyles,
        layout := { getDefaultLayout with
          strategy := .Flexbox,
          height := some 100.5, width := some 50 },
        componentName := none, componentType := none, textContent := none } []

/-- Witness node for C10, non-Flexbox branch: Static with height 80. -/
def c10bnode : ParsedNode :=
  .mk { id := "c10b", name := "leaf", ntype := "RECTANGLE", bounds := ⟨0, 0, 50, 80⟩,
        styles := getDefaultStyles,
        layout := { getDefaultLayout with strategy := .Static, height := some 80 },
        componentName := none, componentType := none, textContent := none } []

/-- Witness input for C6: three stacked boxes (y 0, 50, 100, each height 50),
the specification's arrangement-determinism example. -/
def c6children : List FigmaNode :=
  [leafFN "c6a" ⟨0, 0, 50, 50⟩, leafFN "c6b" ⟨0, 50, 60, 50⟩,
   leafFN "c6c" ⟨0, 100, 40, 50⟩]

/-- Witness input for C3: the specification's decorative-override example, a
4 by 40 bar 25px below the candidate's bottom edge. -/
def c3bar : ParsedNode := mkPN "c3bar" ⟨30, 125, 40, 4⟩ [] []

/-- The unfilled candidate of the C3 witness. -/
def c3cand : ParsedNode := mkPN "c3cand" ⟨0, 0, 100, 100⟩ [] []

theorem length_insertStable (lt : α → α → Bool) (a : α) (l : List α) :
    (insertStable lt a l).length = l.length + 1 := by
  induction l with
  | nil => rfl
  | cons b t ih =>
    unfold insertStable
    by_cases h : lt b a = true
    · simp [h, ih]
    · simp [h]

theorem length_sortStable (lt : α → α → Bool) (l : List α) :
    (sortStable lt l).length = l.length := by
  induction l with
  | nil => rfl
  | cons a t ih => simp [sortStable, length_insertStable, ih]

theorem vGaps_short (l : List BBox) (h : l.length < 2) : vGaps l = [] := by
  match l with
  | [] => rfl
  | [a] => rfl
  | a :: b :: t => exact absurd h (by simp)

theorem hGaps_short (l : List BBox) (h : l.length < 2) : hGaps l = [] := by
  match l with
  | [] => rfl
  | [a] => rfl
  | a :: b :: t => exact absurd h (by simp)

theorem gapSamples_short (cs : List FigmaNode) (arr : Arrangement)
    (h : cs.length < 2) : gapSamples cs arr = [] := by
  have hb : (boxesOf cs).length < 2 :=
    lt_of_le_of_lt (List.length_filterMap_le _ _) h
  unfold gapSamples
  cases arr
  · rw [vGaps_short]
    · rfl
    · rw [sortByY, length_sortStable]; exact hb
  · rw [hGaps_short]
    · rfl
    · rw [sortByX, length_sortStable]; exact hb
  · rfl

theorem if_ge_swap {α : Sort _} (a b : ℚ) (x y : α) :
    (if a ≥ b then x else y) = (if a < b then y else x) := by
  by_cases h : a < b
  · rw [if_neg (by exact fun hge => absurd h (not_lt.mpr hge)), if_pos h]
  · rw [if_pos (not_lt.mp h), if_neg h]

/-- C4. Gap estimation over the non-negative consecutive gap samples of a
sorted sibling list: calculateChildGaps computes exactly the estimator the
specification describes (gapSpecOf); with zero samples the result is 0, one
sample is rounded to two decimals with no clamping (a lone 250 stays 250),
two or more samples go through median filtering, 50 percent fallback,
rounding and clamping (mean 250 gives exactly 24, mean 12.345 gives 12.35). -/
theorem calculateChildGaps_spec :
    (∀ (cs : List FigmaNode) (arr : Arrangement),
      calculateChildGaps cs arr = gapSpecOf (gapSamples cs arr)) ∧
    gapSpecOf [] = 0 ∧ (∀ g : ℚ, gapSpecOf [g] = round2 g) ∧
    gapSpecOf [250] = 250 ∧ gapSpecOf [250, 250] = 24 ∧
    gapSpecOf [12.12, 12.57] = 12.35 := by
  refine ⟨?_, ?_, ?_, ?_, ?_, ?_⟩
  · intro cs arr
    by_cases hlen : cs.length < 2
    · rw [calculateChildGaps, if_pos hlen, gapSamples_short cs arr hlen]
      rfl
    · rw [calculateChildGaps, if_neg hlen, gapSpecOf]
      by_cases h0 : (gapSamples cs arr).length = 0
      · simp [h0]
      · rw [if_neg h0, if_neg h0]
        by_cases h1 : (gapSamples cs arr).length = 1
        · rw [if_pos h1, if_pos h1]
        · rw [if_neg h1, if_neg h1]
          have hfil :
              (sortStable (fun a b => decide (a < b)) (gapSamples cs arr)).filter
                  (fun g => decide (¬ (g > (sortStable (fun a b => decide (a < b))
                    (gapSamples cs arr)).getD ((sortStable (fun a b => decide (a < b))
                    (gapSamples cs arr)).length / 2) 0 * (5/2)))) =
                (sortStable (fun a b => decide (a < b)) (gapSamples cs arr)).filter
                  (fun g => decide (g ≤ (sortStable (fun a b => decide (a < b))
                    (gapSamples cs arr)).getD ((sortStable (fun a b => decide (a < b))
                    (gapSamples cs arr)).length / 2) 0 * (5/2))) := by
            apply List.filter_congr
            intro g _
            simp [not_lt]
          simp only [hfil, if_ge_swap]
  · rfl
  · intro g; rfl
  · show (if _ then _ else _) = _
    norm_num [round2, jsRound]
  · norm_num [gapSpecOf, sortStable, insertStable, List.getD, round2, jsRound]
  · norm_num [gapSpecOf, sortStable, insertStable, List.getD, round2, jsRound]

theorem vertChainOK_iff (l : List BBox) :
    vertChainOK l = true ↔
      List.Chain' (fun a b => a.y + a.height - 5 ≤ b.y) l := by
  induction l with
  | nil => simp [vertChainOK]
  | cons a t ih =>
    cases t with
    | nil => simp [vertChainOK]
    | cons b t2 =>
      rw [List.chain'_cons, ← ih]
      simp [vertChainOK, not_lt]

theorem horizChainOK_iff (l : List BBox) :
    horizChainOK l = true ↔
      List.Chain' (fun a b => a.x + a.width - 5 ≤ b.x) l := by
  induction l with
  | nil => simp [horizChainOK]
  | cons a t ih =>
    cases t with
    | nil => simp [horizChainOK]
    | cons b t2 =>
      rw [List.chain'_cons, ← ih]
      simp [horizChainOK, not_lt]

/-- C6. Arrangement classification: complex whenever fewer than 2 children
are boxed; with at least 2 boxed children it is vertical exactly when every
consecutive pair of the y-sorted boxes satisfies next.y ≥ current.y +
current.height − 5; failing that, horizontal exactly under the symmetric
x-condition; complex when neither chain holds. -/
theorem detectChildArrangement_spec (cs : List FigmaNode) :
    ((boxesOf cs).length < 2 → detectChildArrangement cs = .complex) ∧
    (2 ≤ (boxesOf cs).length →
      ((detectChildArrangement cs = .vertical ↔
          List.Chain' (fun a b => a.y + a.height - 5 ≤ b.y)
            (sortByY (boxesOf cs))) ∧
        (¬ List.Chain' (fun a b => a.y + a.height - 5 ≤ b.y)
            (sortByY (boxesOf cs)) →
          (detectChildArrangement cs = .horizontal ↔
            List.Chain' (fun a b => a.x + a.width - 5 ≤ b.x)
              (sortByX (boxesOf cs)))) ∧
        (¬ List.Chain' (fun a b => a.y + a.height - 5 ≤ b.y)
            (sortByY (boxesOf cs)) →
          ¬ List.Chain' (fun a b => a.x + a.width - 5 ≤ b.x)
            (sortByX (boxesOf cs)) →
          detectChildArrangement cs = .complex))) := by
  constructor
  · intro h
    rw [detectChildArrangement, if_pos h]
  · intro h2
    have hn : ¬ (boxesOf cs).length < 2 := by omega
    by_cases hv : vertChainOK (sortByY (boxesOf cs)) = true
    · have hcv := (vertChainOK_iff _).mp hv
      refine ⟨?_, ?_, ?_⟩
      · rw [detectChildArrangement, if_neg hn, if_pos hv]
        exact iff_of_true rfl hcv
      · intro hc; exact absurd hcv hc
      · intro hc; exact absurd hcv hc
    · have hv2 : vertChainOK (sortByY (boxesOf cs)) = false := by
        simpa using hv
      have hcv : ¬ List.Chain' (fun a b => a.y + a.height - 5 ≤ b.y)
          (sortByY (boxesOf cs)) := fun hc => hv ((vertChainOK_iff _).mpr hc)
      by_cases hh : horizChainOK (sortByX (boxesOf cs)) = true
      · have hch := (horizChainOK_iff _).mp hh
        refine ⟨?_, ?_, ?_⟩
        · rw [detectChildArrangement, if_neg hn, if_neg (by simp [hv2]),
            if_pos hh]
          exact iff_of_false (by simp) hcv
        · intro _
          rw [detectChildArrangement, if_neg hn, if_neg (by simp [hv2]),
            if_pos hh]
          exact iff_of_true rfl hch
        · intro _ hc; exact absurd hch hc
      · have hh2 : horizChainOK (sortByX (boxesOf cs)) = false := by
          simpa using hh
        have hchn : ¬ List.Chain' (fun a b => a.x + a.width - 5 ≤ b.x)
            (sortByX (boxesOf cs)) := fun hc => hh ((horizChainOK_iff _).mpr hc)
        refine ⟨?_, ?_, ?_⟩
        · rw [detectChildArrangement, if_neg hn, if_neg (by simp [hv2]),
            if_neg (by simp [hh2])]
          exact iff_of_false (by simp) hcv
        · intro _
          rw [detectChildArrangement, if_neg hn, if_neg (by simp [hv2]),
            if_neg (by simp [hh2])]
          exact iff_of_false (by simp) hchn
        · intro _ _
          rw [detectChildArrangement, if_neg hn, if_neg (by simp [hv2]),
            if_neg (by simp [hh2])]

theorem detectChildArrangement_spec_witness :
    2 ≤ (boxesOf c6children).length ∧ detectChildArrangement c6children = .vertical := by
  have hlen : 2 ≤ (boxesOf c6children).length := by
    norm_num [c6children, boxesOf, leafFN, baseFNData, FigmaNode.data,
      List.filterMap]
  refine ⟨hlen, (((detectChildArrangement_spec c6children).2 hlen).1).mpr ?_⟩
  norm_num [c6children, boxesOf, leafFN, baseFNData, FigmaNode.data,
    List.filterMap, sortByY, sortStable, insertStable, List.chain'_cons]

/-- C3. Characterization of Parser.isVisuallyContained: a decorative child
(thin bar, or low indicator-named box) is regrouped exactly when it lies in
the candidate expanded by 30 on every side, with no fill or size condition;
a non-decorative child is regrouped exactly when it lies in the candidate
expanded by 10, the candidate has at least one visible fill (the parsed
fills are the visible ones), and the child is under 95 percent of the
candidate on both axes. -/
theorem isVisuallyContained_spec :
    (∀ child parent : ParsedNode,
      isVisuallyContained child parent = true ↔
        ((specDecorative child.data.bounds child.data.name ∧
            specContained 30 child.data.bounds parent.data.bounds) ∨
          (¬ specDecorative child.data.bounds child.data.name ∧
            specContained 10 child.data.bounds parent.data.bounds ∧
            parent.data.styles.fills ≠ [] ∧
            specSmaller child.data.bounds parent.data.bounds))) ∧
    c3cand.data.styles.fills = [] ∧
    isVisuallyContained c3bar c3cand = true := by
  refine ⟨fun child parent => ?_, rfl, ?_⟩
  case refine_2 =>
    norm_num [isVisuallyContained, c3bar, c3cand, mkPN, getDefaultStyles,
      nameHasIndicator, hasSub, jsToLowerData, lowerChar, List.isPrefixOf,
      ParsedNode.data]
  have hdecb :
      ((decide (child.data.bounds.height < 10 ∧ child.data.bounds.width > 20) ||
        (decide (child.data.bounds.height < 30) &&
          nameHasIndicator child.data.name)) = true) ↔
      specDecorative child.data.bounds child.data.name := by
    simp [specDecorative]
  by_cases hdec : specDecorative child.data.bounds child.data.name
  · have hb := hdecb.mpr hdec
    simp only [isVisuallyContained, hb]
    simp [specContained, specSmaller, hdec, and_assoc]
    tauto
  · have hb : (decide (child.data.bounds.height < 10 ∧
        child.data.bounds.width > 20) ||
        (decide (child.data.bounds.height < 30) &&
          nameHasIndicator child.data.name)) = false := by
      rw [← Bool.not_eq_true]
      exact fun h => hdec (hdecb.mp h)
    simp only [isVisuallyContained, hb]
    simp [specContained, specSmaller, hdec, and_assoc, List.length_pos]

theorem detect_complex_of_short (cs : List FigmaNode)
    (h : (boxesOf cs).length < 2) : detectChildArrangement cs = .complex := by
  rw [detectChildArrangement, if_pos h]

theorem two_le_of_arrangement (cs : List FigmaNode)
    (h : detectChildArrangement cs = .vertical ∨
      detectChildArrangement cs = .horizontal) :
    2 ≤ (boxesOf cs).length := by
  by_contra hn
  have hc := detect_complex_of_short cs (by omega)
  rcases h with h | h <;> rw [hc] at h <;> simp at h

/-- C2 (amended). The strategy cascade of Parser.determineLayoutStrategy:
declared auto-layout gives Flexbox; otherwise both the detected-Flexbox
branch and the Absolute branch additionally require the node's own bounding
box to be present, so a node with children but no bounding box falls through
to Static. -/
theorem determineLayoutStrategy_spec (n : FigmaNode) :
    determineLayoutStrategy n = amendedStrategyC2 n := by
  unfold determineLayoutStrategy amendedStrategyC2
  by_cases hd : declaredAutoLayout n = true
  · simp [hd]
  · have hd2 : declaredAutoLayout n = false := by simpa using hd
    simp only [hd2, Bool.false_eq_true, if_false]
    by_cases hbb : n.data.absoluteBoundingBox.isSome
    · by_cases hch : n.children.length > 0
      · rw [if_pos ⟨hch, hbb⟩]
        cases harr : detectChildArrangement n.children with
        | vertical =>
          have h2 := two_le_of_arrangement n.children (Or.inl harr)
          rw [if_pos ⟨hbb, h2, Or.inl rfl⟩]
        | horizontal =>
          have h2 := two_le_of_arrangement n.children (Or.inr harr)
          rw [if_pos ⟨hbb, h2, Or.inr rfl⟩]
        | complex =>
          rw [if_neg (by rintro ⟨-, -, h | h⟩ <;> simp at h),
            if_pos ⟨hbb, hch⟩]
      · have hch0 : n.children.length = 0 := by omega
        have hnil : n.children = [] := List.length_eq_zero.mp hch0
        rw [if_neg (by rintro ⟨h, -⟩; omega)]
        have hb0 : (boxesOf n.children).length = 0 := by simp [boxesOf, hnil]
        rw [if_neg (by rintro ⟨-, h2, -⟩; omega),
          if_neg (by rintro ⟨-, h⟩; omega)]
    · rw [if_neg (by rintro ⟨-, hb⟩; exact hbb hb),
        if_neg (by rintro ⟨hb, -⟩; exact hbb hb),
        if_neg (by rintro ⟨hb, -⟩; exact hbb hb)]

/-- C2 (counterexample). A node with one boxed child but no bounding box of
its own: the code gives Static, the claim's cascade gives Absolute. -/
theorem determineLayoutStrategy_claim_cex :
    determineLayoutStrategy c2node = .Static ∧
    claimStrategyC2 c2node = .Absolute := by
  constructor
  · decide
  · decide

/-- C9. For a node whose Flexbox strategy is inferred from child arrangement
(no declared auto-layout), extractLayout sets the gap field exactly when the
estimated average gap exceeds 0.5; estimates of 0.5 or less leave the gap
absent. -/
theorem extractLayout_gap_guard (n : FigmaNode)
    (hdecl : declaredAutoLayout n = false)
    (hflex : determineLayoutStrategy n = .Flexbox) :
    (extractLayout n).gap =
      if calculateChildGaps n.children (detectChildArrangement n.children) > 1/2
      then some (calculateChildGaps n.children (detectChildArrangement n.children))
      else none := by
  have harr : detectChildArrangement n.children = .vertical ∨
      detectChildArrangement n.children = .horizontal := by
    rw [determineLayoutStrategy, if_neg (by simp [hdecl])] at hflex
    by_cases hg : n.children.length > 0 ∧ n.data.absoluteBoundingBox.isSome
    · rw [if_pos hg] at hflex
      cases h : detectChildArrangement n.children with
      | vertical => exact Or.inl rfl
      | horizontal => exact Or.inr rfl
      | complex => rw [h] at hflex; simp at hflex
    · rw [if_neg hg] at hflex; simp at hflex
  have hlen : n.children.length > 1 := by
    have h2 := two_le_of_arrangement n.children harr
    have hle := List.length_filterMap_le
      (fun c : FigmaNode => c.data.absoluteBoundingBox) n.children
    rw [boxesOf] at h2
    omega
  simp only [extractLayout]
  rw [if_neg (by simp [hdecl]), if_pos ⟨hflex, hlen⟩]

theorem extractLayout_gap_guard_witness :
    declaredAutoLayout c9node = false ∧
    determineLayoutStrategy c9node = .Flexbox ∧
    calculateChildGaps c9node.children (detectChildArrangement c9node.children)
      = 2/5 ∧
    (extractLayout c9node).gap = none := by
  have hdecl : declaredAutoLayout c9node = false := rfl
  have harr : detectChildArrangement c9node.children = .vertical := by
    norm_num [c9node, leafFN, baseFNData, FigmaNode.data, FigmaNode.children,
      detectChildArrangement, boxesOf, List.filterMap, sortByY, sortStable,
      insertStable, vertChainOK]
  have hflex : determineLayoutStrategy c9node = .Flexbox := by
    rw [determineLayoutStrategy, if_neg (by simp [hdecl]),
      if_pos (by constructor <;> decide), harr]
  have hg : calculateChildGaps c9node.children
      (detectChildArrangement c9node.children) = 2/5 := by
    rw [harr]
    norm_num [c9node, leafFN, baseFNData, FigmaNode.data, FigmaNode.children,
      calculateChildGaps, gapSamples, boxesOf, List.filterMap, sortByY,
      sortStable, insertStable, vGaps, List.filter, List.getD, round2, jsRound]
  refine ⟨hdecl, hflex, hg, ?_⟩
  rw [extractLayout_gap_guard c9node hdecl hflex, hg]
  norm_num

theorem applyAbsoluteLayout_hmh (css : CSSProperties) (l : LayoutProperties)
    (n : ParsedNode) (p : Option ParsedNode) :
    (applyAbsoluteLayout css l n p).height = css.height ∧
    (applyAbsoluteLayout css l n p).minHeight = css.minHeight := by
  constructor <;> (simp only [applyAbsoluteLayout]; repeat' split) <;> rfl

set_option maxHeartbeats 1600000 in
theorem applyFlexboxLayout_hmh (css : CSSProperties) (l : LayoutProperties) :
    (applyFlexboxLayout css l).height = css.height ∧
    (applyFlexboxLayout css l).minHeight = css.minHeight := by
  constructor <;> (simp only [applyFlexboxLayout]; repeat' split) <;> rfl

theorem applyGridLayout_hmh (css : CSSProperties) (l : LayoutProperties) :
    (applyGridLayout css l).height = css.height ∧
    (applyGridLayout css l).minHeight = css.minHeight := by
  constructor <;> (simp only [applyGridLayout]; repeat' split) <;> rfl

theorem applyStaticLayout_hmh (css : CSSProperties) (l : LayoutProperties) :
    (applyStaticLayout css l).height = css.height ∧
    (applyStaticLayout css l).minHeight = css.minHeight := by
  constructor <;> (simp only [applyStaticLayout]; repeat' split) <;> rfl

theorem applyStrategySwitch_hmh (s : LayoutStrategy) (css : CSSProperties)
    (l : LayoutProperties) (n : ParsedNode) (p : Option ParsedNode) :
    (applyStrategySwitch s css l n p).height = css.height ∧
    (applyStrategySwitch s css l n p).minHeight = css.minHeight := by
  cases s
  · exact applyAbsoluteLayout_hmh css l n p
  · exact applyFlexboxLayout_hmh css l
  · exact applyGridLayout_hmh css l
  · exact applyStaticLayout_hmh css l

theorem applyWidthStep_hmh (css : CSSProperties) (l : LayoutProperties) :
    (applyWidthStep css l).height = css.height ∧
    (applyWidthStep css l).minHeight = css.minHeight := by
  constructor <;> (simp only [applyWidthStep]; repeat' split) <;> rfl

set_option maxHeartbeats 1600000 in
theorem applyCenteringStep_hmh (n : ParsedNode) (p : Option ParsedNode)
    (css : CSSProperties) :
    (applyCenteringStep n p css).height = css.height ∧
    (applyCenteringStep n p css).minHeight = css.minHeight := by
  constructor <;> (simp only [applyCenteringStep]; repeat' split) <;> rfl

/-- C10. For a node with a defined positive height and no constraints, CSS
generation emits the height (rounded to two decimals) as min-height when the
declared strategy is Flexbox — and no fixed height property at all — and as
a fixed height property for every other strategy (Absolute, Static, Grid). -/
theorem generateLayoutCSS_height_spec (node : ParsedNode)
    (parentNode : Option ParsedNode) (h : ℚ)
    (hh : node.data.layout.height = some h) (hpos : 0 < h)
    (hc : node.data.layout.constraints = none) :
    (node.data.layout.strategy = .Flexbox →
      (generateLayoutCSS node parentNode).minHeight =
        some (.px (round2 h)) ∧
      (generateLayoutCSS node parentNode).height = none) ∧
    (node.data.layout.strategy ≠ .Flexbox →
      (generateLayoutCSS node parentNode).height =
        some (.px (round2 h))) := by
  have hred : generateLayoutCSS node parentNode =
      applyHeightStep
        (applyCenteringStep node parentNode
          (applyWidthStep
            (applyStrategySwitch (effectiveStrategy node parentNode) {}
              node.data.layout node parentNode) node.data.layout))
        node.data.layout := by
    simp only [generateLayoutCSS, hc]
  have h3 :
      (applyCenteringStep node parentNode
        (applyWidthStep
          (applyStrategySwitch (effectiveStrategy node parentNode) {}
            node.data.layout node parentNode) node.data.layout)).height
        = none ∧
      (applyCenteringStep node parentNode
        (applyWidthStep
          (applyStrategySwitch (effectiveStrategy node parentNode) {}
            node.data.layout node parentNode) node.data.layout)).minHeight
        = none := by
    have h1 := applyStrategySwitch_hmh (effectiveStrategy node parentNode) {}
      node.data.layout node parentNode
    have h2 := applyWidthStep_hmh
      (applyStrategySwitch (effectiveStrategy node parentNode) {}
        node.data.layout node parentNode) node.data.layout
    have h3 := applyCenteringStep_hmh node parentNode
      (applyWidthStep
        (applyStrategySwitch (effectiveStrategy node parentNode) {}
          node.data.layout node parentNode) node.data.layout)
    exact ⟨by rw [h3.1, h2.1, h1.1], by rw [h3.2, h2.2, h1.2]⟩
  rw [hred]
  simp only [applyHeightStep, hh]
  rw [if_pos hpos]
  constructor
  · intro hflex
    rw [if_pos hflex]
    exact ⟨rfl, h3.1⟩
  · intro hnf
    rw [if_neg hnf]
    by_cases habs : node.data.layout.strategy = .Absolute
    · rw [if_pos habs]
    · rw [if_neg habs]

theorem generateLayoutCSS_height_spec_witness :
    c10node.data.layout.height = some 100.5 ∧
    c10node.data.layout.strategy = .Flexbox ∧
    (generateLayoutCSS c10node none).minHeight = some (.px 100.5) ∧
    (generateLayoutCSS c10node none).height = none ∧
    c10bnode.data.layout.strategy = .Static ∧
    (generateLayoutCSS c10bnode none).height = some (.px 80) := by
  have hfx := (generateLayoutCSS_height_spec c10node none 100.5 rfl
    (by norm_num) rfl).1 rfl
  have hst := (generateLayoutCSS_height_spec c10bnode none 80 rfl
    (by norm_num) rfl).2 (by simp [c10bnode, ParsedNode.data, getDefaultLayout])
  have hr1 : round2 100.5 = 100.5 := by norm_num [round2, jsRound]
  have hr2 : round2 80 = 80 := by norm_num [round2, jsRound]
  rw [hr1] at hfx
  rw [hr2] at hst
  exact ⟨rfl, rfl, hfx.1, hfx.2, rfl, hst⟩

theorem applyStaticLayout_plt (css : CSSProperties) (l : LayoutProperties) :
    (applyStaticLayout css l).position = css.position ∧
    (applyStaticLayout css l).top = css.top ∧
    (applyStaticLayout css l).left = css.left := by
  refine ⟨?_, ?_, ?_⟩ <;> (simp only [applyStaticLayout]; repeat' split) <;> rfl

theorem applyWidthStep_plt (css : CSSProperties) (l : LayoutProperties) :
    (applyWidthStep css l).position = css.position ∧
    (applyWidthStep css l).top = css.top ∧
    (applyWidthStep css l).left = css.left := by
  refine ⟨?_, ?_, ?_⟩ <;> (simp only [applyWidthStep]; repeat' split) <;> rfl

theorem applyHeightStep_plt (css : CSSProperties) (l : LayoutProperties) :
    (applyHeightStep css l).position = css.position ∧
    (applyHeightStep css l).top = css.top ∧
    (applyHeightStep css l).left = css.left := by
  refine ⟨?_, ?_, ?_⟩ <;> (simp only [applyHeightStep]; repeat' split) <;> rfl

set_option maxHeartbeats 1600000 in
theorem applyCenteringStep_plt (n : ParsedNode) (p : Option ParsedNode)
    (css : CSSProperties) (hp : css.position = none) (ht : css.top = none)
    (hl : css.left = none) :
    (applyCenteringStep n p css).position = none ∧
    (applyCenteringStep n p css).top = none ∧
    ((applyCenteringStep n p css).left = none ∨
      (applyCenteringStep n p css).left = some (.pct 50)) := by
  refine ⟨?_, ?_, ?_⟩ <;> (simp only [applyCenteringStep]; repeat' split) <;>
    simp_all

theorem effectiveStrategy_static (node parent : ParsedNode)
    (hdec : codeDecorativeC7 node.data.layout node.data.name = true)
    (habs : node.data.layout.strategy = .Absolute)
    (hpf : parent.data.layout.strategy = .Flexbox) :
    effectiveStrategy node (some parent) = .Static := by
  rw [codeDecorativeC7] at hdec
  have hcond : ((isDecorativeLineCSS node.data.layout ||
      isDecorativeContainerCSS node.data.layout node.data.name) &&
      parentIsFlexbox (some parent) &&
      decide (node.data.layout.strategy = .Absolute)) = true := by
    simp [hdec, parentIsFlexbox, hpf, habs]
  simp only [effectiveStrategy, hcond, if_true]

/-- C7 (amended). A node that is decorative by the code's test (JS truthiness
on height and width before the comparisons: present and nonzero height, and
for the thin-bar case present nonzero width over 20), declared Absolute, with
a Flexbox parent and no constraints, is rendered through the Static branch:
no position property and no top offset are emitted, and any left value comes
only from the 50 percent centering override. -/
theorem generateLayoutCSS_decorative_override (node parent : ParsedNode)
    (hdec : codeDecorativeC7 node.data.layout node.data.name = true)
    (habs : node.data.layout.strategy = .Absolute)
    (hpf : parent.data.layout.strategy = .Flexbox)
    (hc : node.data.layout.constraints = none) :
    effectiveStrategy node (some parent) = .Static ∧
    (generateLayoutCSS node (some parent)).position = none ∧
    (generateLayoutCSS node (some parent)).top = none ∧
    ((generateLayoutCSS node (some parent)).left = none ∨
      (generateLayoutCSS node (some parent)).left = some (.pct 50)) := by
  have heff := effectiveStrategy_static node parent hdec habs hpf
  have hred : generateLayoutCSS node (some parent) =
      applyHeightStep (applyCenteringStep node (some parent)
        (applyWidthStep (applyStaticLayout {} node.data.layout)
          node.data.layout)) node.data.layout := by
    simp only [generateLayoutCSS, hc, heff, applyStrategySwitch]
  have h1 := applyStaticLayout_plt {} node.data.layout
  have h2 := applyWidthStep_plt (applyStaticLayout {} node.data.layout)
    node.data.layout
  have h3 := applyCenteringStep_plt node (some parent)
    (applyWidthStep (applyStaticLayout {} node.data.layout) node.data.layout)
    (by rw [h2.1, h1.1]) (by rw [h2.2.1, h1.2.1]) (by rw [h2.2.2, h1.2.2])
  have h4 := applyHeightStep_plt (applyCenteringStep node (some parent)
    (applyWidthStep (applyStaticLayout {} node.data.layout) node.data.layout))
    node.data.layout
  refine ⟨heff, ?_, ?_, ?_⟩
  · rw [hred, h4.1, h3.1]
  · rw [hred, h4.2.1, h3.2.1]
  · rw [hred, h4.2.2]
    exact h3.2.2

theorem generateLayoutCSS_decorative_override_witness :
    codeDecorativeC7 c7wnode.data.layout c7wnode.data.name = true ∧
    c7wnode.data.layout.strategy = .Absolute ∧
    c7parent.data.layout.strategy = .Flexbox ∧
    effectiveStrategy c7wnode (some c7parent) = .Static ∧
    (generateLayoutCSS c7wnode (some c7parent)).position = none := by
  have hdec : codeDecorativeC7 c7wnode.data.layout c7wnode.data.name = true := by
    norm_num [codeDecorativeC7, isDecorativeLineCSS, isDecorativeContainerCSS,
      c7wnode, ParsedNode.data, getDefaultLayout]
  have h := generateLayoutCSS_decorative_override c7wnode c7parent hdec rfl
    rfl rfl
  exact ⟨hdec, rfl, rfl, h.1, h.2.1⟩

/-- C7 (counterexample). A 30 by 0 node (decorative by the claim's plain
comparisons since 0 < 10), Absolute, under a Flexbox parent: the code's
truthiness test rejects it, the override does not fire, and position
absolute with pixel left and top offsets is emitted. -/
theorem generateLayoutCSS_claim_cex :
    claimDecorativeC7 c7node.data.layout c7node.data.name ∧
    c7node.data.layout.strategy = .Absolute ∧
    c7parent.data.layout.strategy = .Flexbox ∧
    (generateLayoutCSS c7node (some c7parent)).position = some "absolute" ∧
    (generateLayoutCSS c7node (some c7parent)).left = some (.px 10) ∧
    (generateLayoutCSS c7node (some c7parent)).top = some (.px 10) := by
  have hcss : generateLayoutCSS c7node (some c7parent) =
      { position := some "absolute", left := some (.px 10),
        top := some (.px 10), width := some (.px 30) } := by
    norm_num [generateLayoutCSS, applyStrategySwitch, effectiveStrategy,
      isDecorativeLineCSS, isDecorativeContainerCSS, nameHasIndicator, hasSub,
      jsToLowerData, lowerChar, List.isPrefixOf, parentIsFlexbox,
      applyAbsoluteLayout, applyWidthStep, applyCenteringStep, applyHeightStep,
      round2, jsRound, c7node, c7parent, c7layout, c7parentLayout,
      getDefaultLayout, ParsedNode.data]
  refine ⟨Or.inl ⟨0, 30, rfl, rfl, by norm_num, by norm_num⟩, rfl, rfl, ?_, ?_, ?_⟩
  · rw [hcss]
  · rw [hcss]
  · rw [hcss]

/-- C5 (amended). The cross-axis vote of detectAlignment: with the tallies
taken by countP over the boxed children (center within 2px, else start
within 5px, else end within 5px) and the 0.6 / 0.5 threshold table, the
alignItems result is the alignItemsCascade of those counts; and when no
category meets the threshold the cascade picks center only when its count
strictly exceeds both others (a center-start tie goes to start), then start
or end by strict comparison, and on an exact start-end tie falls back to
stretch (all cross-axis sizes within 10px of the parent) or start. -/
theorem detectAlignment_vote (parent : FigmaNode) (children : List FigmaNode)
    (pb : BBox) (hpb : parent.data.absoluteBoundingBox = some pb)
    (hch : ¬ children.length = 0) (hbx : ¬ (boxesOf children).length = 0) :
    ((detectAlignment parent children .vertical).alignItems =
      some (alignItemsCascade (boxesOf children).length
        ((boxesOf children).countP (centeredV pb))
        ((boxesOf children).countP (leftAlignedV pb))
        ((boxesOf children).countP (rightAlignedV pb))
        ((boxesOf children).all
          (fun b => decide (|b.width - pb.width| < 10))))) ∧
    ((detectAlignment parent children .horizontal).alignItems =
      some (alignItemsCascade (boxesOf children).length
        ((boxesOf children).countP (centeredH pb))
        ((boxesOf children).countP (topAlignedH pb))
        ((boxesOf children).countP (bottomAlignedH pb))
        ((boxesOf children).all
          (fun b => decide (|b.height - pb.height| < 10))))) ∧
    (∀ (total c l r : ℕ) (stretchOK : Bool),
      ¬ ((c : ℚ) ≥ (total : ℚ) * (if total ≥ 3 then (3:ℚ)/5 else 1/2)) →
      ¬ ((l : ℚ) ≥ (total : ℚ) * (if total ≥ 3 then (3:ℚ)/5 else 1/2)) →
      ¬ ((r : ℚ) ≥ (total : ℚ) * (if total ≥ 3 then (3:ℚ)/5 else 1/2)) →
      alignItemsCascade total c l r stretchOK =
        if c > l ∧ c > r then "center"
        else if l > r then "flex-start"
        else if r > l then "flex-end"
        else if stretchOK then "stretch" else "flex-start") := by
  refine ⟨?_, ?_, ?_⟩
  · simp only [detectAlignment, hpb, if_neg hch, if_neg hbx]
  · simp only [detectAlignment, hpb, if_neg hch, if_neg hbx]
  · intro total c l r stretchOK h1 h2 h3
    rw [alignItemsCascade]
    simp only [if_neg h1, if_neg h2, if_neg h3]

/-- C5 (counterexample). Three boxed children with tallies center 1, start 1,
end 0 and no category at the 0.6 threshold: the claim's tie-break (center
preferred over start on an exact tie of the raw maximum) picks center, the
code picks flex-start. -/
theorem detectAlignment_claim_cex :
    (boxesOf c5children).countP (centeredV c5pb) = 1 ∧
    (boxesOf c5children).countP (leftAlignedV c5pb) = 1 ∧
    (boxesOf c5children).countP (rightAlignedV c5pb) = 0 ∧
    claimAlignVote 3 1 1 0 false = "center" ∧
    (detectAlignment c5parent c5children .vertical).alignItems =
      some "flex-start" := by
  refine ⟨?_, ?_, ?_, ?_, ?_⟩
  · norm_num [boxesOf, c5children, leafFN, baseFNData, FigmaNode.data,
      List.filterMap, List.countP_cons, List.countP_nil, centeredV, c5pb, abs_lt]
  · norm_num [boxesOf, c5children, leafFN, baseFNData, FigmaNode.data,
      List.filterMap, List.countP_cons, List.countP_nil, centeredV, leftAlignedV, c5pb, abs_lt]
  · norm_num [boxesOf, c5children, leafFN, baseFNData, FigmaNode.data,
      List.filterMap, List.countP_cons, List.countP_nil, centeredV, leftAlignedV, rightAlignedV,
      c5pb, abs_lt]
  · norm_num [claimAlignVote]
  · norm_num [detectAlignment, c5parent, c5children, c5pb, leafFN, baseFNData,
      FigmaNode.data, boxesOf, List.filterMap, List.countP_cons, List.countP_nil, centeredV,
      leftAlignedV, rightAlignedV, alignItemsCascade, abs_lt]

theorem detectAlignment_vote_witness :
    c5parent.data.absoluteBoundingBox = some c5pb ∧
    (detectAlignment c5parent c5children .vertical).alignItems =
      some (alignItemsCascade (boxesOf c5children).length
        ((boxesOf c5children).countP (centeredV c5pb))
        ((boxesOf c5children).countP (leftAlignedV c5pb))
        ((boxesOf c5children).countP (rightAlignedV c5pb))
        ((boxesOf c5children).all
          (fun b => decide (|b.width - c5pb.width| < 10)))) := by
  refine ⟨rfl, (detectAlignment_vote c5parent c5children c5pb rfl ?_ ?_).1⟩
  · norm_num [c5children]
  · norm_num [boxesOf, c5children, leafFN, baseFNData, FigmaNode.data,
      List.filterMap]

mutual
theorem parseNode_shift (comps : List (String × ComponentEntry)) :
    ∀ (n : FigmaNode) (ws : List String),
    parseNode comps n ws =
      ((parseNode comps n []).1, ws ++ (parseNode comps n []).2)
  | .mk d cs, ws => by
    rw [parseNode, parseNode]
    cases hinfo : instanceInfo comps d with
    | error e => simp
    | ok info =>
      rw [parseNodeList_shift comps cs ws]
theorem parseNodeList_shift (comps : List (String × ComponentEntry)) :
    ∀ (cs : List FigmaNode) (ws : List String),
    parseNodeList comps cs ws =
      ((parseNodeList comps cs []).1, ws ++ (parseNodeList comps cs []).2)
  | [], ws => by simp [parseNodeList]
  | c :: cs, ws => by
    rw [parseNodeList, parseNodeList, parseNode_shift comps c ws]
    dsimp only
    rw [parseNodeList_shift comps cs
        (ws ++ (parseNode comps c List.nil).2),
      parseNodeList_shift comps cs (parseNode comps c List.nil).2]
    simp
end

theorem parseNodeList_map (comps : List (String × ComponentEntry))
    (cs : List FigmaNode) (ws : List String) :
    (parseNodeList comps cs ws).1 =
      cs.map (fun c => (parseNode comps c []).1) := by
  induction cs generalizing ws with
  | nil => simp [parseNodeList]
  | cons c t ih =>
    rw [parseNodeList, parseNode_shift comps c ws]
    simp [ih]

theorem instanceInfo_error (comps : List (String × ComponentEntry))
    (d : FigmaNodeData) (e : String)
    (h : instanceInfo comps d = .error e) : e = throwMsg := by
  rw [instanceInfo] at h
  repeat' split at h
  all_goals simp_all [throwMsg]

/-- C8. Per-node error isolation of Parser.parseNode: when processing a
node's own fields throws (the component-instance step on a malformed
components entry, the one throwing statement of the guarded body), the node
comes back as a zero-size childless leaf with Static strategy and default
styles, the warning list — the value returned by getWarnings — gains exactly
one diagnostic, no exception escapes, and every sibling list is parsed
element by element, each node independently of the others. -/
theorem parseNode_error_isolation (comps : List (String × ComponentEntry))
    (n : FigmaNode) (ws : List String) (hthrow : nodeThrows comps n = true) :
    parseNode comps n ws =
      (minimalParsedNode n.data, ws ++ [parseErrorMsg n.data throwMsg]) ∧
    (minimalParsedNode n.data).data.layout = getDefaultLayout ∧
    (minimalParsedNode n.data).data.styles = getDefaultStyles ∧
    (minimalParsedNode n.data).data.bounds = ⟨0, 0, 0, 0⟩ ∧
    (minimalParsedNode n.data).children = [] ∧
    (∀ (cs : List FigmaNode) (ws2 : List String),
      (parseNodeList comps cs ws2).1 =
        cs.map (fun c => (parseNode comps c []).1)) := by
  refine ⟨?_, rfl, rfl, rfl, rfl, fun cs ws2 => parseNodeList_map comps cs ws2⟩
  obtain ⟨d, cs⟩ := n
  rw [nodeThrows] at hthrow
  simp only [FigmaNode.data] at hthrow
  rw [parseNode]
  cases hinfo : instanceInfo comps d with
  | error e =>
    have he := instanceInfo_error comps d e hinfo
    rw [he]
    rfl
  | ok info => rw [hinfo] at hthrow; simp at hthrow

theorem parseNode_error_isolation_witness :
    nodeThrows comps0 badInstance = true ∧
    parseNode comps0 badInstance [] =
      (minimalParsedNode badInstance.data,
        [parseErrorMsg badInstance.data throwMsg]) ∧
    (parseNodeList comps0 [goodLeaf, badInstance] []).1 =
      [(parseNode comps0 goodLeaf []).1, (parseNode comps0 badInstance []).1] := by
  have ht : nodeThrows comps0 badInstance = true := by decide
  have h := parseNode_error_isolation comps0 badInstance [] ht
  refine ⟨ht, by simpa using h.1, ?_⟩
  rw [h.2.2.2.2.2 [goodLeaf, badInstance] []]
  simp

theorem allIds_mk (d : PData) (cs : List ParsedNode) :
    allIds (.mk d cs) = d.id :: allIdsList cs := by
  rw [allIds]

theorem allIdsList_append (xs ys : List ParsedNode) :
    allIdsList (xs ++ ys) = allIdsList xs ++ allIdsList ys := by
  induction xs with
  | nil => simp [allIdsList]
  | cons c t ih => simp [allIdsList, ih]

theorem mem_allIdsList {x : String} {cs : List ParsedNode} :
    x ∈ allIdsList cs ↔ ∃ c ∈ cs, x ∈ allIds c := by
  induction cs with
  | nil => simp [allIdsList]
  | cons c t ih =>
    rw [allIdsList, List.mem_append, ih]
    constructor
    · rintro (h | ⟨c2, hc2, hx⟩)
      · exact ⟨c, List.mem_cons_self c t, h⟩
      · exact ⟨c2, List.mem_cons_of_mem c hc2, hx⟩
    · rintro ⟨c2, hc2, hx⟩
      rcases List.mem_cons.mp hc2 with rfl | hc2
      · exact Or.inl hx
      · exact Or.inr ⟨c2, hc2, hx⟩

theorem rootId_mem_allIds (t : ParsedNode) : t.data.id ∈ allIds t := by
  obtain ⟨d, cs⟩ := t
  simp [allIds, ParsedNode.data]

theorem noSelfAnc_mk (d : PData) (cs : List ParsedNode) :
    noSelfAnc (.mk d cs) = true ↔
      d.id ∉ allIdsList cs ∧ noSelfAncList cs = true := by
  rw [noSelfAnc]
  simp [List.elem_iff]

theorem noSelfAncList_iff (cs : List ParsedNode) :
    noSelfAncList cs = true ↔ ∀ c ∈ cs, noSelfAnc c = true := by
  induction cs with
  | nil => simp [noSelfAncList]
  | cons c t ih => simp [noSelfAncList, ih]

theorem noSelfAncList_append (xs ys : List ParsedNode) :
    noSelfAncList (xs ++ ys) = (noSelfAncList xs && noSelfAncList ys) := by
  induction xs with
  | nil => simp [noSelfAncList]
  | cons c t ih => simp [noSelfAncList, ih, Bool.and_assoc]

theorem getD_mem_of_lt {α : Type _} (l : List α) (i : ℕ) (d : α)
    (h : i < l.length) : l.getD i d ∈ l := by
  rw [List.getD_eq_getElem l d h]
  exact List.getElem_mem h

theorem length_regroupList (cs : List ParsedNode) :
    (regroupList cs).length = cs.length := by
  induction cs with
  | nil => rfl
  | cons c t ih => simp [regroupList, ih]

theorem regroupList_getD (cs : List ParsedNode) (i : ℕ) (h : i < cs.length) :
    (regroupList cs).getD i default = regroup (cs.getD i default) := by
  induction cs generalizing i with
  | nil => simp at h
  | cons c t ih =>
    cases i with
    | zero => rfl
    | succ j =>
      rw [regroupList, List.getD_cons_succ, List.getD_cons_succ]
      exact ih j (by simpa using h)

theorem regroup_data (t : ParsedNode) : (regroup t).data = t.data := by
  obtain ⟨d, cs⟩ := t
  rw [regroup]
  rfl

theorem targetIdx_some (cs : List ParsedNode) (i j : ℕ)
    (h : targetIdx cs i = some j) :
    j < cs.length ∧ j ≠ i ∧
      isVisuallyContained (cs.getD i default) (cs.getD j default) = true := by
  rw [targetIdx] at h
  have hmem := List.mem_of_find?_eq_some h
  have hsat := List.find?_some h
  rw [List.mem_range] at hmem
  simp only [Bool.and_eq_true, decide_eq_true_eq] at hsat
  exact ⟨hmem, hsat.1, hsat.2⟩

theorem iterTgt_add (cs : List ParsedNode) (a b i : ℕ) :
    iterTgt cs (a + b) i = (iterTgt cs a i).bind (iterTgt cs b) := by
  induction a generalizing i with
  | zero => simp [iterTgt]
  | succ a ih =>
    have h1 : a + 1 + b = (a + b) + 1 := by omega
    rw [h1]
    show (targetIdx cs i).bind (iterTgt cs (a + b)) = _
    cases ht : targetIdx cs i with
    | none => simp [iterTgt, ht]
    | some j => simp [iterTgt, ht, ih]

theorem iterTgt_periodic (cs : List ParsedNode) (k m : ℕ)
    (h : iterTgt cs (k + 1) m = some m) :
    ∀ c : ℕ, iterTgt cs (c * (k + 1)) m = some m := by
  intro c
  induction c with
  | zero => simp [iterTgt]
  | succ c ih =>
    have he : (c + 1) * (k + 1) = c * (k + 1) + (k + 1) := by ring
    rw [he, iterTgt_add, ih]
    simpa using h

theorem iterTgt_no_cycle (cs : List ParsedNode) (d r m k : ℕ)
    (hterm : iterTgt cs d m = some r) (hroot : targetIdx cs r = none)
    (hcyc : iterTgt cs (k + 1) m = some m) : False := by
  have hnone : iterTgt cs (d + 1) m = none := by
    rw [iterTgt_add, hterm]
    simp [iterTgt, hroot]
  have hper := iterTgt_periodic cs k m hcyc (d + 1)
  have hle : d + 1 ≤ (d + 1) * (k + 1) :=
    Nat.le_mul_of_pos_right _ (by omega)
  obtain ⟨e, he⟩ := Nat.exists_eq_add_of_le hle
  rw [he, iterTgt_add, hnone] at hper
  simp at hper

theorem attachExtras_ids (cs : List ParsedNode) :
    ∀ (fuel m : ℕ), m < cs.length →
    ∀ x, x ∈ allIds (attachExtras cs fuel m) →
    ∃ i k, i < cs.length ∧ iterTgt cs k i = some m ∧
      x ∈ allIds (cs.getD i default) := by
  intro fuel
  induction fuel with
  | zero =>
    intro m hm x hx
    rw [attachExtras] at hx
    exact ⟨m, 0, hm, by simp [iterTgt], hx⟩
  | succ fuel ih =>
    intro m hm x hx
    rw [attachExtras] at hx
    obtain ⟨bd, bcs, hb⟩ : ∃ bd bcs, cs.getD m default = ParsedNode.mk bd bcs := by
      cases h : cs.getD m default with
      | mk a b => exact ⟨a, b, rfl⟩
    rw [hb] at hx
    simp only [ParsedNode.data, ParsedNode.children] at hx
    rw [allIds_mk, List.mem_cons, allIdsList_append] at hx
    rcases hx with hx | hx
    · refine ⟨m, 0, hm, by simp [iterTgt], ?_⟩
      rw [hb, hx, allIds_mk]
      exact List.mem_cons_self _ _
    · rcases List.mem_append.mp hx with hx | hx
      · refine ⟨m, 0, hm, by simp [iterTgt], ?_⟩
        rw [hb, allIds_mk]
        exact List.mem_cons_of_mem _ hx
      · rw [mem_allIdsList] at hx
        obtain ⟨e, he, hxe⟩ := hx
        rw [List.mem_map] at he
        obtain ⟨m1, hm1mem, rfl⟩ := he
        rw [List.mem_filter, List.mem_range] at hm1mem
        obtain ⟨hm1r, hm1t⟩ := hm1mem
        have hm1t2 : targetIdx cs m1 = some m := by simpa using hm1t
        obtain ⟨i, k, hi, hk, hxi⟩ := ih m1 hm1r x hxe
        refine ⟨i, k + 1, hi, ?_, hxi⟩
        rw [iterTgt_add, hk]
        simp [iterTgt, hm1t2]

theorem attachExtras_noSelfAnc (cs : List ParsedNode)
    (Hcross : ∀ i j, i < cs.length → j < cs.length →
      (cs.getD j default).data.id ∈ allIds (cs.getD i default) → i = j)
    (Hgood : ∀ i, i < cs.length → noSelfAnc (cs.getD i default) = true) :
    ∀ (fuel m : ℕ), m < cs.length →
    (∃ d r, iterTgt cs d m = some r ∧ targetIdx cs r = none) →
    noSelfAnc (attachExtras cs fuel m) = true := by
  intro fuel
  induction fuel with
  | zero =>
    intro m hm _
    rw [attachExtras]
    exact Hgood m hm
  | succ fuel ih =>
    intro m hm hchain
    obtain ⟨dd, rr, hdr, hrr⟩ := hchain
    rw [attachExtras]
    obtain ⟨bd, bcs, hb⟩ : ∃ bd bcs, cs.getD m default = ParsedNode.mk bd bcs := by
      cases h : cs.getD m default with
      | mk a b => exact ⟨a, b, rfl⟩
    rw [hb]
    simp only [ParsedNode.data, ParsedNode.children]
    rw [noSelfAnc_mk]
    have hgm := Hgood m hm
    rw [hb, noSelfAnc_mk] at hgm
    constructor
    · rw [allIdsList_append]
      intro hmem
      rcases List.mem_append.mp hmem with hmem | hmem
      · exact hgm.1 hmem
      · rw [mem_allIdsList] at hmem
        obtain ⟨e, he, hxe⟩ := hmem
        rw [List.mem_map] at he
        obtain ⟨m1, hm1mem, rfl⟩ := he
        rw [List.mem_filter, List.mem_range] at hm1mem
        obtain ⟨hm1r, hm1t⟩ := hm1mem
        have hm1t2 : targetIdx cs m1 = some m := by simpa using hm1t
        obtain ⟨i, k, hi, hk, hxi⟩ := attachExtras_ids cs fuel m1 hm1r _ hxe
        have hbdid : (cs.getD m default).data.id ∈ allIds (cs.getD i default) := by
          rw [hb]
          simpa [ParsedNode.data] using hxi
        have him : i = m := Hcross i m hi hm hbdid
        subst him
        have hcyc : iterTgt cs (k + 1) i = some i := by
          rw [iterTgt_add, hk]
          simp [iterTgt, hm1t2]
        exact iterTgt_no_cycle cs dd rr i k hdr hrr hcyc
    · rw [noSelfAncList_append]
      rw [Bool.and_eq_true]
      refine ⟨hgm.2, ?_⟩
      rw [noSelfAncList_iff]
      intro e he
      rw [List.mem_map] at he
      obtain ⟨m1, hm1mem, rfl⟩ := he
      rw [List.mem_filter, List.mem_range] at hm1mem
      obtain ⟨hm1r, hm1t⟩ := hm1mem
      have hm1t2 : targetIdx cs m1 = some m := by simpa using hm1t
      refine ih m1 hm1r ⟨dd + 1, rr, ?_, hrr⟩
      have h1 : dd + 1 = 1 + dd := by omega
      rw [h1, iterTgt_add]
      simp [iterTgt, hm1t2, hdr]

theorem levelPass_noSelfAnc (cs : List ParsedNode)
    (Hcross : ∀ i j, i < cs.length → j < cs.length →
      (cs.getD j default).data.id ∈ allIds (cs.getD i default) → i = j)
    (Hgood : ∀ i, i < cs.length → noSelfAnc (cs.getD i default) = true) :
    noSelfAncList (levelPass cs) = true := by
  rw [noSelfAncList_iff]
  intro e he
  rw [levelPass, List.mem_map] at he
  obtain ⟨j, hjmem, rfl⟩ := he
  rw [List.mem_filter, List.mem_range] at hjmem
  obtain ⟨hjr, hjt⟩ := hjmem
  have hjt2 : targetIdx cs j = none := by simpa using hjt
  exact attachExtras_noSelfAnc cs Hcross Hgood cs.length j hjr
    ⟨0, j, by simp [iterTgt], hjt2⟩

theorem levelPass_ids (cs : List ParsedNode) :
    ∀ x, x ∈ allIdsList (levelPass cs) → x ∈ allIdsList cs := by
  intro x hx
  rw [mem_allIdsList] at hx
  obtain ⟨e, he, hxe⟩ := hx
  rw [levelPass, List.mem_map] at he
  obtain ⟨j, hjmem, rfl⟩ := he
  rw [List.mem_filter, List.mem_range] at hjmem
  obtain ⟨i, k, hi, _, hxi⟩ := attachExtras_ids cs cs.length j hjmem.1 x hxe
  rw [mem_allIdsList]
  exact ⟨cs.getD i default, getD_mem_of_lt cs i default hi, hxi⟩

mutual
theorem regroup_ids_sub : ∀ (t : ParsedNode) (x : String),
    x ∈ allIds (regroup t) → x ∈ allIds t
  | .mk d cs, x => by
    intro hx
    rw [regroup, allIds_mk, List.mem_cons] at hx
    rw [allIds_mk, List.mem_cons]
    rcases hx with hx | hx
    · exact Or.inl hx
    · exact Or.inr (regroupList_ids_sub cs x (levelPass_ids (regroupList cs) x hx))
theorem regroupList_ids_sub : ∀ (cs : List ParsedNode) (x : String),
    x ∈ allIdsList (regroupList cs) → x ∈ allIdsList cs
  | [], x => by simp [regroupList]
  | c :: cs, x => by
    intro hx
    rw [regroupList, allIdsList] at hx
    rw [allIdsList]
    rcases List.mem_append.mp hx with hx | hx
    · exact List.mem_append.mpr (Or.inl (regroup_ids_sub c x hx))
    · exact List.mem_append.mpr (Or.inr (regroupList_ids_sub cs x hx))
end

theorem allIdsList_eq_flatten (cs : List ParsedNode) :
    allIdsList cs = (cs.map allIds).flatten := by
  induction cs with
  | nil => simp [allIdsList]
  | cons c t ih => simp [allIdsList, ih]

theorem nodup_blocks_cross (cs : List ParsedNode)
    (h : (allIdsList cs).Nodup) (i j : ℕ) (hi : i < cs.length)
    (hj : j < cs.length)
    (hmem : (cs.getD j default).data.id ∈ allIds (cs.getD i default)) :
    i = j := by
  by_contra hne
  rw [allIdsList_eq_flatten, List.nodup_flatten] at h
  have hpair := h.2
  rw [List.pairwise_iff_getElem] at hpair
  have hmi : i < (cs.map allIds).length := by simpa using hi
  have hmj : j < (cs.map allIds).length := by simpa using hj
  have hgi : (cs.map allIds)[i] = allIds (cs.getD i default) := by
    rw [List.getElem_map, List.getD_eq_getElem cs default hi]
  have hgj : (cs.map allIds)[j] = allIds (cs.getD j default) := by
    rw [List.getElem_map, List.getD_eq_getElem cs default hj]
  rcases Nat.lt_or_ge i j with hlt | hge
  · have hd := hpair i j hmi hmj hlt
    rw [hgi, hgj] at hd
    exact hd hmem (rootId_mem_allIds _)
  · have hlt2 : j < i := by omega
    have hd := hpair j i hmj hmi hlt2
    rw [hgi, hgj] at hd
    exact hd (rootId_mem_allIds _) hmem

theorem nodup_block (cs : List ParsedNode) (h : (allIdsList cs).Nodup)
    (c : ParsedNode) (hc : c ∈ cs) : (allIds c).Nodup := by
  rw [allIdsList_eq_flatten, List.nodup_flatten] at h
  exact h.1 (allIds c) (List.mem_map_of_mem allIds hc)

mutual
theorem regroup_noSelfAnc_aux : ∀ t : ParsedNode,
    (allIds t).Nodup → noSelfAnc (regroup t) = true
  | .mk d cs => by
    intro h
    rw [allIds_mk] at h
    have hdn := List.nodup_cons.mp h
    rw [regroup, noSelfAnc_mk]
    have hlen : (regroupList cs).length = cs.length := length_regroupList cs
    have Hgood : ∀ i, i < (regroupList cs).length →
        noSelfAnc ((regroupList cs).getD i default) = true := by
      intro i hi
      have hi2 : i < cs.length := by omega
      rw [regroupList_getD cs i hi2]
      exact regroupList_noSelfAnc_aux cs (cs.getD i default)
        (getD_mem_of_lt cs i default hi2)
        (nodup_block cs hdn.2 _ (getD_mem_of_lt cs i default hi2))
    have Hcross : ∀ i j, i < (regroupList cs).length →
        j < (regroupList cs).length →
        ((regroupList cs).getD j default).data.id ∈
          allIds ((regroupList cs).getD i default) → i = j := by
      intro i j hi hj hmem
      have hi2 : i < cs.length := by omega
      have hj2 : j < cs.length := by omega
      rw [regroupList_getD cs j hj2, regroup_data,
        regroupList_getD cs i hi2] at hmem
      have hmem2 := regroup_ids_sub (cs.getD i default) _ hmem
      exact nodup_blocks_cross cs hdn.2 i j hi2 hj2 hmem2
    constructor
    · intro hmem
      have h1 := levelPass_ids (regroupList cs) _ hmem
      have h2 := regroupList_ids_sub cs _ h1
      exact hdn.1 h2
    · exact levelPass_noSelfAnc (regroupList cs) Hcross Hgood
theorem regroupList_noSelfAnc_aux : ∀ cs : List ParsedNode,
    ∀ c ∈ cs, (allIds c).Nodup → noSelfAnc (regroup c) = true
  | [] => by simp
  | c :: cs => by
    intro c2 hc2 hnd
    rcases List.mem_cons.mp hc2 with rfl | hc2
    · exact regroup_noSelfAnc_aux c2 hnd
    · exact regroupList_noSelfAnc_aux cs c2 hc2 hnd
end

/-- C1 (amended). After containment resolution no node is an ancestor of a
node with its own id: for any input tree with globally distinct ids (the
data model guarantees id uniqueness), every subtree of the regrouped tree
has its root id absent from its strict descendants. The idempotence half of
the claim is false (see the counterexample): a child relocated in one pass
can be relocated again, deeper, by a second pass. -/
theorem regroup_no_self_ancestor (t : ParsedNode)
    (h : (allIds t).Nodup) : noSelfAnc (regroup t) = true :=
  regroup_noSelfAnc_aux t h

theorem regroup_no_self_ancestor_witness :
    (allIds c1tree).Nodup ∧ noSelfAnc (regroup c1tree) = true := by
  have hnd : (allIds c1tree).Nodup := by
    simp [c1tree, mkPN, allIds, allIdsList, List.nodup_cons]
  exact ⟨hnd, regroup_no_self_ancestor c1tree hnd⟩

theorem regroup_c1tree_depth : depthP (regroup c1tree) = 3 := by
  norm_num [c1tree, mkPN, getDefaultStyles, getDefaultLayout, regroup,
    regroupList, levelPass, targetIdx, attachExtras, isVisuallyContained,
    nameHasIndicator, hasSub, jsToLowerData, lowerChar, List.isPrefixOf,
    List.range_succ, List.range_zero, List.find?, List.filter, List.map,
    List.getD, ParsedNode.data, ParsedNode.children, depthP, depthList]

theorem regroup_c1tree_depth2 : depthP (regroup (regroup c1tree)) = 4 := by
  norm_num [c1tree, mkPN, getDefaultStyles, getDefaultLayout, regroup,
    regroupList, levelPass, targetIdx, attachExtras, isVisuallyContained,
    nameHasIndicator, hasSub, jsToLowerData, lowerChar, List.isPrefixOf,
    List.range_succ, List.range_zero, List.find?, List.filter, List.map,
    List.getD, ParsedNode.data, ParsedNode.children, depthP, depthList]

/-- C1 (counterexample, idempotence half). On c1tree — A contained in its
filled sibling B, which already holds a filled child C that also contains
A — the first resolution pass moves A into B (depth 3), and a second pass
moves A further into C (depth 4), so resolution is not idempotent. -/
theorem regroup_not_idempotent : regroup (regroup c1tree) ≠ regroup c1tree := by
  intro h
  have hd := congrArg depthP h
  rw [regroup_c1tree_depth, regroup_c1tree_depth2] at hd
  omega
